import Mathlib

/-!
Shallow embedding of junkdb's storage-and-execution core: the slotted
`TablePage` byte layout (`src/page/table_page.rs`), the `DeleteExecutor`
(`src/executor/delete_executor.rs`) and the `Planner` (`src/plan.rs`),
together with proofs about them.

A page is a byte buffer, modelled as a `List Nat` whose entries play the
role of `u8` values.  Rust's panicking slice operations
(`&d[a..b]`, `d[a..b].copy_from_slice(src)`) are modelled as
`Option`-valued operations whose `none` branch is the out-of-bounds
panic.  `u32` arithmetic is modelled on `Nat` with explicit wrapping
(`% 2^32`), matching release-mode semantics; all theorems below operate
in ranges where no wrap occurs.
-/

namespace Junkdb

/-! ## Constants of the page layout

`PAGE_SIZE` and the page-header constants live in `common.rs` and
`page/mod.rs`, outside the excerpted files; their values are taken from
the specification's wire-format section: a 4096-byte page starting with
a 2-byte page-type tag and a 4-byte page id. -/

def PAGE_SIZE : Nat := 4096

def PAGE_TYPE_OFFSET : Nat := 0

def PAGE_TYPE_SIZE : Nat := 2

def PAGE_ID_OFFSET : Nat := PAGE_TYPE_OFFSET + PAGE_TYPE_SIZE

def PAGE_ID_SIZE : Nat := 4

def LSN_OFFSET : Nat := PAGE_ID_OFFSET + PAGE_ID_SIZE

def LSN_SIZE : Nat := 8

def NEXT_PAGE_ID_OFFSET : Nat := LSN_OFFSET + LSN_SIZE

def NEXT_PAGE_ID_SIZE : Nat := 4

def LOWER_OFFSET_OFFSET : Nat := NEXT_PAGE_ID_OFFSET + NEXT_PAGE_ID_SIZE

def LOWER_OFFSET_SIZE : Nat := 4

def UPPER_OFFSET_OFFSET : Nat := LOWER_OFFSET_OFFSET + LOWER_OFFSET_SIZE

def UPPER_OFFSET_SIZE : Nat := 4

def HEADER_SIZE : Nat :=
  PAGE_TYPE_SIZE + PAGE_ID_SIZE + LSN_SIZE + NEXT_PAGE_ID_SIZE + LOWER_OFFSET_SIZE +
    UPPER_OFFSET_SIZE

def LINE_POINTER_OFFSET_SIZE : Nat := 4

def LINE_POINTER_SIZE_SIZE : Nat := 4

def LINE_POINTER_SIZE : Nat := LINE_POINTER_OFFSET_SIZE + LINE_POINTER_SIZE_SIZE

def TABLE_PAGE_PAGE_TYPE : Nat := 1

/-- Modelled from the spec: the `next_page_id` sentinel `INVALID_PAGE_ID`
(defined in `common.rs`, outside the excerpt) is the all-ones `u32`. -/
def INVALID_PAGE_ID : Nat := 4294967295

/-! ## Byte-level primitives -/

/-- `u32` truncation, the semantics of Rust's `as u32`. -/
def wrap32 (n : Nat) : Nat := n % 4294967296

/-- Wrapping `u32` subtraction (for `a < 2^32` this is release-mode
`a - b` on `u32`). -/
def sub32 (a b : Nat) : Nat := (a + 4294967296 - b % 4294967296) % 4294967296

/-- The byte of `d` at index `i` (0 past the end; in-range usage is what
the theorems establish). -/
def byteAt (d : List Nat) (i : Nat) : Nat := d.getD i 0

/-- `d` with `src` overlaid starting at index `a` (the unchecked core of
`copy_from_slice`). -/
def writeAt (d : List Nat) (a : Nat) (src : List Nat) : List Nat :=
  d.take a ++ src ++ d.drop (a + src.length)

/-- `d[a..b].copy_from_slice(src)`: requires `a ≤ b ≤ d.len()` and
`src.len() = b - a`, else Rust panics (`none`). -/
def copyWithin (d : List Nat) (a b : Nat) (src : List Nat) : Option (List Nat) :=
  if a ≤ b ∧ b ≤ d.length ∧ src.length = b - a then some (writeAt d a src) else none

/-- `&d[a..b]` as a copied-out list: requires `a ≤ b ≤ d.len()`, else
Rust panics (`none`). -/
def sliceRange (d : List Nat) (a b : Nat) : Option (List Nat) :=
  if a ≤ b ∧ b ≤ d.length then some ((d.drop a).take (b - a)) else none

/-- Little-endian bytes of a `u16` value. -/
def u16Bytes (n : Nat) : List Nat := [n % 256, n / 256 % 256]

/-- Little-endian bytes of a `u32` value. -/
def u32Bytes (n : Nat) : List Nat :=
  [n % 256, n / 256 % 256, n / 65536 % 256, n / 16777216 % 256]

/-- `u32::from_le_bytes` on the four bytes of `d` at offset `off`. -/
def readU32 (d : List Nat) (off : Nat) : Nat :=
  byteAt d off + 256 * byteAt d (off + 1) + 65536 * byteAt d (off + 2) +
    16777216 * byteAt d (off + 3)

/-! ## TablePage (`src/page/table_page.rs`) -/

structure TablePage where
  data : List Nat
  deriving DecidableEq

def TablePage.lower_offset (p : TablePage) : Nat := readU32 p.data LOWER_OFFSET_OFFSET

def TablePage.upper_offset (p : TablePage) : Nat := readU32 p.data UPPER_OFFSET_OFFSET

def TablePage.free_space (p : TablePage) : Nat := sub32 p.upper_offset p.lower_offset

def TablePage.tuple_count (p : TablePage) : Nat :=
  (p.lower_offset - HEADER_SIZE) / LINE_POINTER_SIZE

def TablePage.line_pointer_offset (p : TablePage) (index : Nat) : Option Nat :=
  let offset := HEADER_SIZE + index * LINE_POINTER_SIZE
  if offset + LINE_POINTER_OFFSET_SIZE ≤ p.data.length then some (readU32 p.data offset)
  else none

def TablePage.line_pointer_size (p : TablePage) (index : Nat) : Option Nat :=
  let offset := HEADER_SIZE + index * LINE_POINTER_SIZE + LINE_POINTER_OFFSET_SIZE
  if offset + LINE_POINTER_SIZE_SIZE ≤ p.data.length then some (readU32 p.data offset)
  else none

/-- `TablePage::new`: zeroed buffer, page type tag, page id, invalid next
page id, `lower_offset = HEADER_SIZE`, `upper_offset = PAGE_SIZE`.
All writes are statically in bounds, so they are plain `writeAt`s. -/
def TablePage.new (page_id : Nat) : TablePage :=
  let d0 := List.replicate PAGE_SIZE 0
  let d1 := writeAt d0 PAGE_TYPE_OFFSET (u16Bytes TABLE_PAGE_PAGE_TYPE)
  let d2 := writeAt d1 PAGE_ID_OFFSET (u32Bytes (wrap32 page_id))
  let d3 := writeAt d2 NEXT_PAGE_ID_OFFSET (u32Bytes INVALID_PAGE_ID)
  let d4 := writeAt d3 LOWER_OFFSET_OFFSET (u32Bytes HEADER_SIZE)
  let d5 := writeAt d4 UPPER_OFFSET_OFFSET (u32Bytes PAGE_SIZE)
  ⟨d5⟩

/-- `TablePage::insert`.  The result pairs the page state after the call
with the returned `Result` (Rust mutates `self` in place); `none` is a
panic inside a slice operation. -/
def TablePage.insert (p : TablePage) (bytes : List Nat) :
    Option (TablePage × Except String Unit) :=
  if p.free_space < bytes.length + LINE_POINTER_SIZE then
    some (p, Except.error "free space not enough")
  else
    let data_size := wrap32 bytes.length
    let lower_offset := p.lower_offset
    let upper_offset := p.upper_offset
    let next_lower_offset := wrap32 (lower_offset + LINE_POINTER_SIZE)
    let next_upper_offset := sub32 upper_offset bytes.length
    (copyWithin p.data LOWER_OFFSET_OFFSET (LOWER_OFFSET_OFFSET + LOWER_OFFSET_SIZE)
      (u32Bytes next_lower_offset)).bind fun d1 =>
    (copyWithin d1 UPPER_OFFSET_OFFSET (UPPER_OFFSET_OFFSET + UPPER_OFFSET_SIZE)
      (u32Bytes next_upper_offset)).bind fun d2 =>
    (copyWithin d2 lower_offset (lower_offset + LINE_POINTER_OFFSET_SIZE)
      (u32Bytes next_upper_offset)).bind fun d3 =>
    (copyWithin d3 (lower_offset + LINE_POINTER_OFFSET_SIZE)
      (lower_offset + LINE_POINTER_SIZE) (u32Bytes data_size)).bind fun d4 =>
    (copyWithin d4 next_upper_offset upper_offset bytes).bind fun d5 =>
    some (⟨d5⟩, Except.ok ())

/-! ## Tuple (`tuple.rs` is outside the excerpt) -/

def XMIN_OFFSET : Nat := 0

def XMIN_SIZE : Nat := 4

def XMAX_OFFSET : Nat := XMIN_OFFSET + XMIN_SIZE

def XMAX_SIZE : Nat := 4

/-- A tuple: an optional `rid = (page_id, slot_index)` and its bytes. -/
structure Tuple where
  rid : Option (Nat × Nat)
  data : List Nat
  deriving DecidableEq

def Tuple.new (rid : Option (Nat × Nat)) (data : List Nat) : Tuple := ⟨rid, data⟩

/-- Modelled from the spec: `Tuple::set_xmax` (in `tuple.rs`, outside the
excerpt) overwrites the fixed 4-byte `xmax` field at the front of the
tuple buffer, after the 4-byte `xmin`, with the little-endian transaction
id, and touches nothing else. -/
def Tuple.set_xmax (t : Tuple) (txn_id : Nat) : Option Tuple :=
  (copyWithin t.data XMAX_OFFSET (XMAX_OFFSET + XMAX_SIZE)
    (u32Bytes (wrap32 txn_id))).bind fun d =>
  some ⟨t.rid, d⟩

/-- `TablePage::delete`: locate the tuple via slot `index`, set its
`xmax` to `txn_id`, write it back. -/
def TablePage.delete (p : TablePage) (index : Nat) (txn_id : Nat) : Option TablePage :=
  (p.line_pointer_offset index).bind fun offset =>
  (p.line_pointer_size index).bind fun size =>
  (sliceRange p.data offset (offset + size)).bind fun t0 =>
  (Tuple.set_xmax (Tuple.new none t0) txn_id).bind fun t1 =>
  (copyWithin p.data offset (offset + size) t1.data).bind fun d =>
  some ⟨d⟩

/-- `TablePage::get_tuple`. -/
def TablePage.get_tuple (p : TablePage) (index : Nat) : Option (List Nat) :=
  (p.line_pointer_offset index).bind fun offset =>
  (p.line_pointer_size index).bind fun size =>
  sliceRange p.data offset (offset + size)

/-- The collection loop of `TablePage::get_tuples`: tuples at indices
`s, s+1, …, s+n-1`. -/
def TablePage.get_tuples_from (p : TablePage) : Nat → Nat → Option (List (List Nat))
  | _, 0 => some []
  | s, n + 1 =>
    (p.get_tuple s).bind fun t =>
    (p.get_tuples_from (s + 1) n).bind fun rest =>
    some (t :: rest)

/-- `TablePage::get_tuples`: `(0..tuple_count).map(get_tuple).collect()`. -/
def TablePage.get_tuples (p : TablePage) : Option (List (List Nat)) :=
  p.get_tuples_from 0 p.tuple_count

/-! ## Derived views and predicates over a page -/

/-- The `offset` field of slot `i`, read directly from the directory. -/
def slotOffset (p : TablePage) (i : Nat) : Nat :=
  readU32 p.data (HEADER_SIZE + i * LINE_POINTER_SIZE)

/-- The `size` field of slot `i`, read directly from the directory. -/
def slotSize (p : TablePage) (i : Nat) : Nat :=
  readU32 p.data (HEADER_SIZE + i * LINE_POINTER_SIZE + LINE_POINTER_OFFSET_SIZE)

/-- The two offset conditions claimed as the page invariant, together
with slot-directory alignment. -/
def PageInv (p : TablePage) : Prop :=
  HEADER_SIZE ≤ p.lower_offset ∧ p.lower_offset ≤ p.upper_offset ∧
    p.upper_offset ≤ PAGE_SIZE ∧ (p.lower_offset - HEADER_SIZE) % LINE_POINTER_SIZE = 0

instance (p : TablePage) : Decidable (PageInv p) := by
  unfold PageInv
  exact inferInstance

/-- A well-formed `TablePage` buffer: fixed size and ordered offsets
(the data-model invariants of the spec). -/
def WF (p : TablePage) : Prop :=
  p.data.length = PAGE_SIZE ∧ HEADER_SIZE ≤ p.lower_offset ∧
    p.lower_offset ≤ p.upper_offset ∧ p.upper_offset ≤ PAGE_SIZE

instance (p : TablePage) : Decidable (WF p) := by
  unfold WF
  exact inferInstance

/-- The spec's slot invariant: every slot references a byte range inside
`[upper_offset, PAGE_SIZE)`, and the range is at least the 8 bytes of
the tuple's MVCC header. -/
def SlotsValid (p : TablePage) : Prop :=
  ∀ i, i < p.tuple_count →
    p.upper_offset ≤ slotOffset p i ∧ slotOffset p i + slotSize p i ≤ PAGE_SIZE ∧
      XMAX_OFFSET + XMAX_SIZE ≤ slotSize p i

instance (p : TablePage) : Decidable (SlotsValid p) := by
  unfold SlotsValid
  exact inferInstance

/-- A successful insert, with the new page state (`none` both when the
page is full and when a slice operation panics). -/
def insertOk (p : TablePage) (bytes : List Nat) : Option TablePage :=
  match p.insert bytes with
  | some (q, Except.ok _) => some q
  | _ => none

/-- A sequence of inserts, every one of which must succeed. -/
def insertAll (p : TablePage) : List (List Nat) → Option TablePage
  | [] => some p
  | b :: bs => (insertOk p b).bind fun q => insertAll q bs

/-- Total size of a list of payloads. -/
def sizesSum : List (List Nat) → Nat
  | [] => 0
  | b :: bs => b.length + sizesSum bs

/-- The byte offset at which payload `i` of `ps` lives: payloads grow
down from the end of the page. -/
def payloadOffset (ps : List (List Nat)) (i : Nat) : Nat :=
  PAGE_SIZE - sizesSum (ps.take (i + 1))

/-- The page state that holds exactly the payloads `ps`, inserted in
order into a fresh page: header offsets, slot directory and payload
bytes. -/
def Represents (p : TablePage) (ps : List (List Nat)) : Prop :=
  p.data.length = PAGE_SIZE ∧
    p.lower_offset = HEADER_SIZE + LINE_POINTER_SIZE * ps.length ∧
    p.upper_offset = PAGE_SIZE - sizesSum ps ∧
    HEADER_SIZE + LINE_POINTER_SIZE * ps.length + sizesSum ps ≤ PAGE_SIZE ∧
    ∀ i, (hi : i < ps.length) →
      slotOffset p i = payloadOffset ps i ∧
      slotSize p i = (ps.get ⟨i, hi⟩).length ∧
      ∀ j, j < (ps.get ⟨i, hi⟩).length →
        byteAt p.data (payloadOffset ps i + j) = byteAt (ps.get ⟨i, hi⟩) j

/-- The buffer produced by a successful `insert` on a page with lower
offset `lower` and new upper offset `nu`: the five in-bounds writes of
the source, in order. -/
def insertData (d : List Nat) (lower nu : Nat) (bs : List Nat) : List Nat :=
  writeAt
    (writeAt
      (writeAt
        (writeAt (writeAt d LOWER_OFFSET_OFFSET (u32Bytes (lower + LINE_POINTER_SIZE)))
          UPPER_OFFSET_OFFSET (u32Bytes nu))
        lower (u32Bytes nu))
      (lower + LINE_POINTER_OFFSET_SIZE) (u32Bytes bs.length))
    nu bs

/-! ## Concrete pages used to instantiate the theorems -/

def e2payloadA : List Nat := List.replicate 20 1

def e2payloadB : List Nat := List.replicate 30 2

/-- The page of scenario E2: a fresh page after inserting a 20-byte and
then a 30-byte payload (the explicit buffer the two inserts produce). -/
def e2page : TablePage :=
  ⟨insertData (insertData (TablePage.new 0).data 26 4076 e2payloadA) 34 4046 e2payloadB⟩

/-- A page with `lower_offset = upper_offset = PAGE_SIZE`: no free space. -/
def fullPage : TablePage :=
  ⟨writeAt (writeAt (List.replicate PAGE_SIZE 0) LOWER_OFFSET_OFFSET (u32Bytes PAGE_SIZE))
    UPPER_OFFSET_OFFSET (u32Bytes PAGE_SIZE)⟩

/-- A page satisfying the two offset conditions whose single slot points
into the header: `lower = 34`, `upper = PAGE_SIZE`, slot 0 =
`{offset = 18, size = 8}`. -/
def c4page : TablePage :=
  ⟨writeAt
    (writeAt
      (writeAt
        (writeAt (List.replicate PAGE_SIZE 0) LOWER_OFFSET_OFFSET
          (u32Bytes (HEADER_SIZE + LINE_POINTER_SIZE)))
        UPPER_OFFSET_OFFSET (u32Bytes PAGE_SIZE))
      HEADER_SIZE (u32Bytes LOWER_OFFSET_OFFSET))
    (HEADER_SIZE + LINE_POINTER_OFFSET_SIZE) (u32Bytes LINE_POINTER_SIZE)⟩

/-- A page whose single slot is in bounds (`[4090, 4096) ⊆
[upper, PAGE_SIZE)`) but shorter than the 8-byte MVCC header:
`lower = 34`, `upper = 4090`, slot 0 = `{offset = 4090, size = 6}`. -/
def c10page : TablePage :=
  ⟨writeAt
    (writeAt
      (writeAt
        (writeAt (List.replicate PAGE_SIZE 0) LOWER_OFFSET_OFFSET
          (u32Bytes (HEADER_SIZE + LINE_POINTER_SIZE)))
        UPPER_OFFSET_OFFSET (u32Bytes (PAGE_SIZE - 6)))
      HEADER_SIZE (u32Bytes (PAGE_SIZE - 6)))
    (HEADER_SIZE + LINE_POINTER_OFFSET_SIZE) (u32Bytes 6)⟩

/-! ## Catalog and bound-AST types (`catalog.rs` and `binder.rs` are
outside the excerpt; modelled from the spec's interface section) -/

inductive DataType where
  | Int
  | Varchar
  | Boolean
  deriving DecidableEq

structure Column where
  name : String
  data_type : DataType
  deriving DecidableEq

structure Schema where
  columns : List Column
  deriving DecidableEq

/-- Modelled from the spec: a bound expression is opaque to the planner
except for `data_type()`; `node_id` stands for the tree's identity. -/
structure BoundExpressionAST where
  node_id : Nat
  data_type : DataType
  deriving DecidableEq

structure BoundSelectElementAST where
  expression : BoundExpressionAST
  name : String
  deriving DecidableEq

/-- Modelled from the spec: an update assignment, opaque to the planner. -/
structure BoundAssignmentAST where
  target : Nat
  value : BoundExpressionAST
  deriving DecidableEq

structure BoundBaseTableReferenceAST where
  first_page_id : Nat
  schema : Schema
  deriving DecidableEq

inductive BoundTableReferenceAST where
  | Base (table_reference : BoundBaseTableReferenceAST)
  deriving DecidableEq

structure BoundSelectStatementAST where
  table_reference : BoundTableReferenceAST
  select_elements : List BoundSelectElementAST
  condition : Option BoundExpressionAST
  deriving DecidableEq

structure BoundInsertStatementAST where
  first_page_id : Nat
  values : List BoundExpressionAST
  deriving DecidableEq

structure BoundDeleteStatementAST where
  table_reference : BoundBaseTableReferenceAST
  condition : Option BoundExpressionAST
  deriving DecidableEq

structure BoundUpdateStatementAST where
  table_reference : BoundBaseTableReferenceAST
  assignments : List BoundAssignmentAST
  condition : Option BoundExpressionAST
  deriving DecidableEq

inductive BoundStatementAST where
  | Select (statement : BoundSelectStatementAST)
  | Insert (statement : BoundInsertStatementAST)
  | Delete (statement : BoundDeleteStatementAST)
  | Update (statement : BoundUpdateStatementAST)
  deriving DecidableEq

/-! ## Plan tree (`src/plan.rs`) -/

structure SeqScanPlan where
  first_page_id : Nat
  schema : Schema
  deriving DecidableEq

structure InsertPlan where
  first_page_id : Nat
  values : List BoundExpressionAST
  schema : Schema
  deriving DecidableEq

mutual

inductive Plan where
  | SeqScan (plan : SeqScanPlan)
  | Filter (plan : FilterPlan)
  | Project (plan : ProjectPlan)
  | Insert (plan : InsertPlan)
  | Delete (plan : DeletePlan)
  | Update (plan : UpdatePlan)

inductive FilterPlan where
  | mk (condition : BoundExpressionAST) (schema : Schema) (child : Plan)

inductive ProjectPlan where
  | mk (select_elements : List BoundSelectElementAST) (schema : Schema) (child : Plan)

inductive DeletePlan where
  | mk (first_page_id : Nat) (schema : Schema) (child : Plan)

inductive UpdatePlan where
  | mk (first_page_id : Nat) (assignments : List BoundAssignmentAST) (schema : Schema)
      (child : Plan)

end

def FilterPlan.condition : FilterPlan → BoundExpressionAST
  | .mk c _ _ => c

def FilterPlan.schema : FilterPlan → Schema
  | .mk _ s _ => s

def FilterPlan.child : FilterPlan → Plan
  | .mk _ _ c => c

def ProjectPlan.schema : ProjectPlan → Schema
  | .mk _ s _ => s

def DeletePlan.first_page_id : DeletePlan → Nat
  | .mk f _ _ => f

def DeletePlan.schema : DeletePlan → Schema
  | .mk _ s _ => s

def DeletePlan.child : DeletePlan → Plan
  | .mk _ _ c => c

def UpdatePlan.schema : UpdatePlan → Schema
  | .mk _ _ s _ => s

def Plan.schema : Plan → Schema
  | .SeqScan plan => plan.schema
  | .Filter plan => plan.schema
  | .Project plan => plan.schema
  | .Insert plan => plan.schema
  | .Delete plan => plan.schema
  | .Update plan => plan.schema

/-! ## Planner (`src/plan.rs`) -/

structure Planner where
  statement : BoundStatementAST

def Planner.new (statement : BoundStatementAST) : Planner := ⟨statement⟩

def Planner.plan_base_table_reference (_ : Planner)
    (table_reference : BoundBaseTableReferenceAST) : Plan :=
  Plan.SeqScan ⟨table_reference.first_page_id, table_reference.schema⟩

def Planner.plan_table_reference (self : Planner)
    (table_reference : BoundTableReferenceAST) : Plan :=
  match table_reference with
  | .Base table_reference => self.plan_base_table_reference table_reference

def Planner.plan_select_statement (self : Planner) (s : BoundSelectStatementAST) : Plan :=
  let plan0 := self.plan_table_reference s.table_reference
  let plan1 :=
    match s.condition with
    | some condition => Plan.Filter (.mk condition plan0.schema plan0)
    | none => plan0
  if s.select_elements.isEmpty then plan1
  else
    Plan.Project
      (.mk s.select_elements
        ⟨s.select_elements.map fun e => ⟨e.name, e.expression.data_type⟩⟩ plan1)

def Planner.plan_insert_statement (_ : Planner) (s : BoundInsertStatementAST) : Plan :=
  Plan.Insert ⟨s.first_page_id, s.values, ⟨[⟨"__insert_count", DataType.Int⟩]⟩⟩

def Planner.plan_delete_statement (self : Planner) (s : BoundDeleteStatementAST) : Plan :=
  let plan0 := self.plan_base_table_reference s.table_reference
  -- The wildcard arm is `unreachable!()` in the source: `plan0` is always a SeqScan.
  let first_page_id :=
    match plan0 with
    | Plan.SeqScan plan => plan.first_page_id
    | _ => 0
  let plan1 :=
    match s.condition with
    | some condition => Plan.Filter (.mk condition plan0.schema plan0)
    | none => plan0
  Plan.Delete (.mk first_page_id ⟨[⟨"__delete_count", DataType.Int⟩]⟩ plan1)

def Planner.plan_update_statement (self : Planner) (s : BoundUpdateStatementAST) : Plan :=
  let plan0 := self.plan_base_table_reference s.table_reference
  -- The wildcard arm is `unreachable!()` in the source: `plan0` is always a SeqScan.
  let first_page_id :=
    match plan0 with
    | Plan.SeqScan plan => plan.first_page_id
    | _ => 0
  let plan1 :=
    match s.condition with
    | some condition => Plan.Filter (.mk condition plan0.schema plan0)
    | none => plan0
  Plan.Update (.mk first_page_id s.assignments ⟨[⟨"__update_count", DataType.Int⟩]⟩ plan1)

def Planner.plan (self : Planner) : Plan :=
  match self.statement with
  | .Select s => self.plan_select_statement s
  | .Insert s => self.plan_insert_statement s
  | .Delete s => self.plan_delete_statement s
  | .Update s => self.plan_update_statement s

/-! ## TableHeap and DeleteExecutor
(`table.rs` is outside the excerpt; `src/executor/delete_executor.rs` is in it) -/

/-- Modelled from the spec: `TableHeap` holds the head page id and the
transaction identity; its `delete(rid)` pins the rid's page, marks the
tuple's `xmax` and unpins.  The buffer pool and lock manager are
abstracted away; the heap is recorded as the ledger of rids deleted, in
call order. -/
structure TableHeap where
  first_page_id : Nat
  txn_id : Nat
  deleted : List (Nat × Nat)
  deriving DecidableEq

/-- Modelled from the spec: `TableHeap::new` captures the head page id
and transaction id; no page is loaded eagerly. -/
def TableHeap.new (first_page_id : Nat) (txn_id : Nat) : TableHeap :=
  ⟨first_page_id, txn_id, []⟩

/-- Modelled from the spec: `TableHeap::delete(rid)` records the rid
(manager errors are outside the core). -/
def TableHeap.delete (h : TableHeap) (rid : Nat × Nat) : TableHeap :=
  ⟨h.first_page_id, h.txn_id, h.deleted ++ [rid]⟩

/-- The two `anyhow!` errors `DeleteExecutor::next` can raise itself. -/
inductive ExecError where
  | tableHeapNotInitialized
  | ridIsNone
  deriving DecidableEq

/-- `DeleteExecutor`: plan, child stream (modelled from the spec as the
list of rows the child will yield before returning `None`), the
`Option`al table heap set by `init()`, and the running count. -/
structure DeleteExecutor where
  plan : DeletePlan
  child : List Tuple
  table_heap : Option TableHeap
  count : Nat

/-- Modelled from the spec: `DeleteExecutor::init` initializes the child
and builds the `TableHeap` from the plan's `first_page_id` and the
context's current transaction id. -/
def DeleteExecutor.init (e : DeleteExecutor) (txn_id : Nat) : DeleteExecutor :=
  { e with table_heap := some (TableHeap.new e.plan.first_page_id txn_id) }

/-- `DeleteExecutor::next`: pull a child row first; if one arrives,
require the heap, require the rid, delete, count, and yield the sentinel
`Tuple::new(None, &vec![])`. -/
def DeleteExecutor.next (e : DeleteExecutor) :
    Except ExecError (DeleteExecutor × Option Tuple) :=
  match e.child with
  | [] => Except.ok (e, none)
  | row :: rest =>
    match e.table_heap with
    | none => Except.error ExecError.tableHeapNotInitialized
    | some table_heap =>
      match row.rid with
      | none => Except.error ExecError.ridIsNone
      | some rid =>
        Except.ok
          ({ e with
              child := rest
              table_heap := some (table_heap.delete rid)
              count := e.count + 1 },
            some (Tuple.new none []))

/-- `n` repeated calls to `next`, threading the executor state. -/
def DeleteExecutor.steps : DeleteExecutor → Nat → Except ExecError DeleteExecutor
  | e, 0 => Except.ok e
  | e, n + 1 =>
    match e.next with
    | Except.error err => Except.error err
    | Except.ok (e2, _) => e2.steps n

/-! ## Concrete executors used to instantiate the theorems -/

def emptySchema : Schema := ⟨[]⟩

def planD : DeletePlan :=
  DeletePlan.mk 0 ⟨[⟨"__delete_count", DataType.Int⟩]⟩ (Plan.SeqScan ⟨0, emptySchema⟩)

def th0 : TableHeap := TableHeap.new 0 7

/-- An initialized executor whose child yields two rows with rids. -/
def e8 : DeleteExecutor :=
  ⟨planD, [Tuple.new (some (1, 0)) [], Tuple.new (some (1, 1)) []], some th0, 0⟩

/-- An uninitialized executor with an exhausted child. -/
def exec9 : DeleteExecutor := ⟨planD, [], none, 0⟩

/-- An uninitialized executor whose child yields a row. -/
def w9 : DeleteExecutor := ⟨planD, [Tuple.new none []], none, 0⟩

/-! # Lemmas about the byte-level primitives -/

theorem wrap32_eq {n : Nat} (h : n < 4294967296) : wrap32 n = n := Nat.mod_eq_of_lt h

theorem sub32_eq {a b : Nat} (hba : b ≤ a) (ha : a < 4294967296) : sub32 a b = a - b := by
  unfold sub32
  omega

theorem length_writeAt {d src : List Nat} {a : Nat} (h : a + src.length ≤ d.length) :
    (writeAt d a src).length = d.length := by
  simp only [writeAt, List.length_append, List.length_take, List.length_drop]
  omega

theorem length_u32Bytes (n : Nat) : (u32Bytes n).length = 4 := rfl

theorem byteAt_writeAt_lo {d src : List Nat} {a i : Nat} (ha : a ≤ d.length) (h : i < a) :
    byteAt (writeAt d a src) i = byteAt d i := by
  have hta : (d.take a).length = a := List.length_take_of_le ha
  have hts : (d.take a ++ src).length = a + src.length := by
    rw [List.length_append, hta]
  unfold byteAt writeAt
  rw [List.getD_eq_getElem?_getD, List.getD_eq_getElem?_getD,
    List.getElem?_append_left (by omega), List.getElem?_append_left (by omega),
    List.getElem?_take_of_lt h]

theorem byteAt_writeAt_mid {d src : List Nat} {a i : Nat} (ha : a ≤ d.length) (h1 : a ≤ i)
    (h2 : i < a + src.length) :
    byteAt (writeAt d a src) i = byteAt src (i - a) := by
  have hta : (d.take a).length = a := List.length_take_of_le ha
  have hts : (d.take a ++ src).length = a + src.length := by
    rw [List.length_append, hta]
  unfold byteAt writeAt
  rw [List.getD_eq_getElem?_getD, List.getD_eq_getElem?_getD,
    List.getElem?_append_left (by omega), List.getElem?_append_right (by omega), hta]

theorem byteAt_writeAt_hi {d src : List Nat} {a i : Nat} (hb : a + src.length ≤ d.length)
    (h : a + src.length ≤ i) :
    byteAt (writeAt d a src) i = byteAt d i := by
  have hta : (d.take a).length = a := List.length_take_of_le (by omega)
  have hts : (d.take a ++ src).length = a + src.length := by
    rw [List.length_append, hta]
  unfold byteAt writeAt
  rw [List.getD_eq_getElem?_getD, List.getD_eq_getElem?_getD,
    List.getElem?_append_right (by omega), hts, List.getElem?_drop]
  have he : a + src.length + (i - (a + src.length)) = i := by omega
  rw [he]

theorem readU32_writeAt_lo {d src : List Nat} {a i : Nat} (ha : a ≤ d.length)
    (h : i + 4 ≤ a) :
    readU32 (writeAt d a src) i = readU32 d i := by
  unfold readU32
  rw [byteAt_writeAt_lo ha (by omega), byteAt_writeAt_lo ha (by omega),
    byteAt_writeAt_lo ha (by omega), byteAt_writeAt_lo ha (by omega)]

theorem readU32_writeAt_hi {d src : List Nat} {a i : Nat} (hb : a + src.length ≤ d.length)
    (h : a + src.length ≤ i) :
    readU32 (writeAt d a src) i = readU32 d i := by
  unfold readU32
  rw [byteAt_writeAt_hi hb (by omega), byteAt_writeAt_hi hb (by omega),
    byteAt_writeAt_hi hb (by omega), byteAt_writeAt_hi hb (by omega)]

theorem byteAt_u32Bytes_0 (n : Nat) : byteAt (u32Bytes n) 0 = n % 256 := rfl

theorem byteAt_u32Bytes_1 (n : Nat) : byteAt (u32Bytes n) 1 = n / 256 % 256 := rfl

theorem byteAt_u32Bytes_2 (n : Nat) : byteAt (u32Bytes n) 2 = n / 65536 % 256 := rfl

theorem byteAt_u32Bytes_3 (n : Nat) : byteAt (u32Bytes n) 3 = n / 16777216 % 256 := rfl

theorem readU32_writeAt_u32Bytes {d : List Nat} {a n : Nat} (hb : a + 4 ≤ d.length)
    (hn : n < 4294967296) :
    readU32 (writeAt d a (u32Bytes n)) a = n := by
  have hl : (u32Bytes n).length = 4 := rfl
  unfold readU32
  rw [byteAt_writeAt_mid (by omega) (by omega) (by omega),
    byteAt_writeAt_mid (by omega) (by omega) (by omega),
    byteAt_writeAt_mid (by omega) (by omega) (by omega),
    byteAt_writeAt_mid (by omega) (by omega) (by omega)]
  have e0 : a - a = 0 := by omega
  have e1 : a + 1 - a = 1 := by omega
  have e2 : a + 2 - a = 2 := by omega
  have e3 : a + 3 - a = 3 := by omega
  rw [e0, e1, e2, e3, byteAt_u32Bytes_0, byteAt_u32Bytes_1, byteAt_u32Bytes_2,
    byteAt_u32Bytes_3]
  omega

theorem copyWithin_pos {d src : List Nat} {a b : Nat} (h1 : a ≤ b) (h2 : b ≤ d.length)
    (h3 : src.length = b - a) :
    copyWithin d a b src = some (writeAt d a src) := by
  unfold copyWithin
  rw [if_pos ⟨h1, h2, h3⟩]

theorem sliceRange_pos {d : List Nat} {a b : Nat} (h1 : a ≤ b) (h2 : b ≤ d.length) :
    sliceRange d a b = some ((d.drop a).take (b - a)) := by
  unfold sliceRange
  rw [if_pos ⟨h1, h2⟩]

theorem length_dropTake {d : List Nat} {a k : Nat} (h : a + k ≤ d.length) :
    ((d.drop a).take k).length = k := by
  rw [List.length_take, List.length_drop]
  omega

theorem byteAt_dropTake {d : List Nat} {a k i : Nat} (h : i < k) :
    byteAt ((d.drop a).take k) i = byteAt d (a + i) := by
  unfold byteAt
  rw [List.getD_eq_getElem?_getD, List.getD_eq_getElem?_getD,
    List.getElem?_take_of_lt h, List.getElem?_drop]

theorem list_eq_of_byteAt {l m : List Nat} (hlen : l.length = m.length)
    (h : ∀ j, j < l.length → byteAt l j = byteAt m j) : l = m := by
  apply List.ext_getElem hlen
  intro i h1 h2
  have hb := h i h1
  unfold byteAt at hb
  rw [List.getD_eq_getElem?_getD, List.getD_eq_getElem?_getD,
    List.getElem?_eq_getElem h1, List.getElem?_eq_getElem h2] at hb
  simpa using hb

/-! ## Numeric values of the layout constants -/

theorem PAGE_SIZE_def : PAGE_SIZE = 4096 := rfl

theorem HEADER_SIZE_def : HEADER_SIZE = 26 := rfl

theorem LINE_POINTER_SIZE_def : LINE_POINTER_SIZE = 8 := rfl

theorem LINE_POINTER_OFFSET_SIZE_def : LINE_POINTER_OFFSET_SIZE = 4 := rfl

theorem LINE_POINTER_SIZE_SIZE_def : LINE_POINTER_SIZE_SIZE = 4 := rfl

theorem LOWER_OFFSET_OFFSET_def : LOWER_OFFSET_OFFSET = 18 := rfl

theorem UPPER_OFFSET_OFFSET_def : UPPER_OFFSET_OFFSET = 22 := rfl

theorem LOWER_OFFSET_SIZE_def : LOWER_OFFSET_SIZE = 4 := rfl

theorem UPPER_OFFSET_SIZE_def : UPPER_OFFSET_SIZE = 4 := rfl

theorem XMAX_OFFSET_def : XMAX_OFFSET = 4 := rfl

theorem XMAX_SIZE_def : XMAX_SIZE = 4 := rfl

theorem PAGE_TYPE_OFFSET_def : PAGE_TYPE_OFFSET = 0 := rfl

theorem PAGE_ID_OFFSET_def : PAGE_ID_OFFSET = 2 := rfl

theorem NEXT_PAGE_ID_OFFSET_def : NEXT_PAGE_ID_OFFSET = 14 := rfl

/-- Chain-friendly form of `length_writeAt`. -/
theorem length_writeAt_eq {d src : List Nat} {a n : Nat} (hd : d.length = n)
    (h : a + src.length ≤ n) : (writeAt d a src).length = n := by
  rw [length_writeAt (by omega)]
  exact hd

theorem length_u16Bytes (n : Nat) : (u16Bytes n).length = 2 := rfl

/-! ## Facts about a fresh page -/

theorem new_data_length (pid : Nat) : (TablePage.new pid).data.length = PAGE_SIZE := by
  simp only [TablePage.new]
  refine length_writeAt_eq (length_writeAt_eq (length_writeAt_eq (length_writeAt_eq
    (length_writeAt_eq (by rw [List.length_replicate])
      (by rw [length_u16Bytes]; decide))
    (by rw [length_u32Bytes]; decide)) (by rw [length_u32Bytes]; decide))
    (by rw [length_u32Bytes]; decide)) (by rw [length_u32Bytes]; decide)

theorem new_lower_offset (pid : Nat) : (TablePage.new pid).lower_offset = HEADER_SIZE := by
  have h3 : (writeAt (writeAt (writeAt (List.replicate 4096 0) 0
      (u16Bytes TABLE_PAGE_PAGE_TYPE)) 2 (u32Bytes (wrap32 pid))) 14
      (u32Bytes INVALID_PAGE_ID)).length = 4096 := by
    refine length_writeAt_eq (length_writeAt_eq (length_writeAt_eq
      (by rw [List.length_replicate]) (by rw [length_u16Bytes]; decide))
      (by rw [length_u32Bytes]; decide)) (by rw [length_u32Bytes]; decide)
  have h4 : (writeAt (writeAt (writeAt (writeAt (List.replicate 4096 0) 0
      (u16Bytes TABLE_PAGE_PAGE_TYPE)) 2 (u32Bytes (wrap32 pid))) 14
      (u32Bytes INVALID_PAGE_ID)) 18 (u32Bytes 26)).length = 4096 :=
    length_writeAt_eq h3 (by rw [length_u32Bytes]; decide)
  simp only [TablePage.new, TablePage.lower_offset, LOWER_OFFSET_OFFSET_def,
    UPPER_OFFSET_OFFSET_def, PAGE_TYPE_OFFSET_def, PAGE_ID_OFFSET_def,
    NEXT_PAGE_ID_OFFSET_def, PAGE_SIZE_def, HEADER_SIZE_def, LINE_POINTER_SIZE_def]
  rw [readU32_writeAt_lo (by rw [h4]; decide) (by decide),
    readU32_writeAt_u32Bytes (by rw [h3]; decide) (by decide)]

theorem new_upper_offset (pid : Nat) : (TablePage.new pid).upper_offset = PAGE_SIZE := by
  have h4 : (writeAt (writeAt (writeAt (writeAt (List.replicate 4096 0) 0
      (u16Bytes TABLE_PAGE_PAGE_TYPE)) 2 (u32Bytes (wrap32 pid))) 14
      (u32Bytes INVALID_PAGE_ID)) 18 (u32Bytes 26)).length = 4096 := by
    refine length_writeAt_eq (length_writeAt_eq (length_writeAt_eq (length_writeAt_eq
      (by rw [List.length_replicate]) (by rw [length_u16Bytes]; decide))
      (by rw [length_u32Bytes]; decide)) (by rw [length_u32Bytes]; decide))
      (by rw [length_u32Bytes]; decide)
  simp only [TablePage.new, TablePage.upper_offset, LOWER_OFFSET_OFFSET_def,
    UPPER_OFFSET_OFFSET_def, PAGE_TYPE_OFFSET_def, PAGE_ID_OFFSET_def,
    NEXT_PAGE_ID_OFFSET_def, PAGE_SIZE_def, HEADER_SIZE_def, LINE_POINTER_SIZE_def]
  rw [readU32_writeAt_u32Bytes (by rw [h4]; decide) (by decide)]

theorem new_free_space (pid : Nat) :
    (TablePage.new pid).free_space = PAGE_SIZE - HEADER_SIZE := by
  unfold TablePage.free_space
  rw [new_lower_offset, new_upper_offset, sub32_eq (by decide) (by decide)]

theorem new_WF (pid : Nat) : WF (TablePage.new pid) := by
  refine ⟨new_data_length pid, ?_, ?_, ?_⟩
  · rw [new_lower_offset]
  · rw [new_lower_offset, new_upper_offset]
    decide
  · rw [new_upper_offset]

/-! ## Characterization of `TablePage.insert` -/

/-- When the page is well formed and the payload plus a slot fit,
`insert` succeeds and produces exactly the five writes of the source. -/
theorem insert_eq_some {p : TablePage} {bs : List Nat}
    (hlen : p.data.length = PAGE_SIZE) (h26 : HEADER_SIZE ≤ p.lower_offset)
    (hfit : p.lower_offset + LINE_POINTER_SIZE + bs.length ≤ p.upper_offset)
    (hU : p.upper_offset ≤ PAGE_SIZE) :
    p.insert bs =
      some (⟨insertData p.data p.lower_offset (p.upper_offset - bs.length) bs⟩,
        Except.ok ()) := by
  rw [PAGE_SIZE_def] at hlen hU
  rw [HEADER_SIZE_def] at h26
  rw [LINE_POINTER_SIZE_def] at hfit
  have hfs : p.free_space = p.upper_offset - p.lower_offset := by
    unfold TablePage.free_space
    exact sub32_eq (by omega) (by omega)
  have hg : ¬ p.free_space < bs.length + LINE_POINTER_SIZE := by
    rw [hfs, LINE_POINTER_SIZE_def]
    omega
  have hw1 : wrap32 (p.lower_offset + 8) = p.lower_offset + 8 := wrap32_eq (by omega)
  have hw2 : sub32 p.upper_offset bs.length = p.upper_offset - bs.length :=
    sub32_eq (by omega) (by omega)
  have hw3 : wrap32 bs.length = bs.length := wrap32_eq (by omega)
  have l1 : (writeAt p.data 18 (u32Bytes (p.lower_offset + 8))).length = 4096 :=
    length_writeAt_eq hlen (by rw [length_u32Bytes]; omega)
  have l2 : (writeAt (writeAt p.data 18 (u32Bytes (p.lower_offset + 8))) 22
      (u32Bytes (p.upper_offset - bs.length))).length = 4096 :=
    length_writeAt_eq l1 (by rw [length_u32Bytes]; omega)
  have l3 : (writeAt (writeAt (writeAt p.data 18 (u32Bytes (p.lower_offset + 8))) 22
      (u32Bytes (p.upper_offset - bs.length))) p.lower_offset
      (u32Bytes (p.upper_offset - bs.length))).length = 4096 :=
    length_writeAt_eq l2 (by rw [length_u32Bytes]; omega)
  have l4 : (writeAt (writeAt (writeAt (writeAt p.data 18 (u32Bytes (p.lower_offset + 8))) 22
      (u32Bytes (p.upper_offset - bs.length))) p.lower_offset
      (u32Bytes (p.upper_offset - bs.length))) (p.lower_offset + 4)
      (u32Bytes bs.length)).length = 4096 :=
    length_writeAt_eq l3 (by rw [length_u32Bytes]; omega)
  have c1 : copyWithin p.data 18 22 (u32Bytes (p.lower_offset + 8)) =
      some (writeAt p.data 18 (u32Bytes (p.lower_offset + 8))) :=
    copyWithin_pos (by decide) (by omega) (by rw [length_u32Bytes])
  have c2 : copyWithin (writeAt p.data 18 (u32Bytes (p.lower_offset + 8))) 22 26
      (u32Bytes (p.upper_offset - bs.length)) =
      some (writeAt (writeAt p.data 18 (u32Bytes (p.lower_offset + 8))) 22
        (u32Bytes (p.upper_offset - bs.length))) :=
    copyWithin_pos (by decide) (by rw [l1]; decide) (by rw [length_u32Bytes])
  have c3 : copyWithin (writeAt (writeAt p.data 18 (u32Bytes (p.lower_offset + 8))) 22
      (u32Bytes (p.upper_offset - bs.length))) p.lower_offset (p.lower_offset + 4)
      (u32Bytes (p.upper_offset - bs.length)) =
      some (writeAt (writeAt (writeAt p.data 18 (u32Bytes (p.lower_offset + 8))) 22
        (u32Bytes (p.upper_offset - bs.length))) p.lower_offset
        (u32Bytes (p.upper_offset - bs.length))) :=
    copyWithin_pos (by omega) (by rw [l2]; omega) (by rw [length_u32Bytes]; omega)
  have c4 : copyWithin (writeAt (writeAt (writeAt p.data 18
      (u32Bytes (p.lower_offset + 8))) 22 (u32Bytes (p.upper_offset - bs.length)))
      p.lower_offset (u32Bytes (p.upper_offset - bs.length))) (p.lower_offset + 4)
      (p.lower_offset + 8) (u32Bytes bs.length) =
      some (writeAt (writeAt (writeAt (writeAt p.data 18 (u32Bytes (p.lower_offset + 8))) 22
        (u32Bytes (p.upper_offset - bs.length))) p.lower_offset
        (u32Bytes (p.upper_offset - bs.length))) (p.lower_offset + 4)
        (u32Bytes bs.length)) :=
    copyWithin_pos (by omega) (by rw [l3]; omega) (by rw [length_u32Bytes]; omega)
  have c5 : copyWithin (writeAt (writeAt (writeAt (writeAt p.data 18
      (u32Bytes (p.lower_offset + 8))) 22 (u32Bytes (p.upper_offset - bs.length)))
      p.lower_offset (u32Bytes (p.upper_offset - bs.length))) (p.lower_offset + 4)
      (u32Bytes bs.length)) (p.upper_offset - bs.length) p.upper_offset bs =
      some (writeAt (writeAt (writeAt (writeAt (writeAt p.data 18
        (u32Bytes (p.lower_offset + 8))) 22 (u32Bytes (p.upper_offset - bs.length)))
        p.lower_offset (u32Bytes (p.upper_offset - bs.length))) (p.lower_offset + 4)
        (u32Bytes bs.length)) (p.upper_offset - bs.length) bs) :=
    copyWithin_pos (by omega) (by rw [l4]; omega) (by omega)
  unfold TablePage.insert
  rw [if_neg hg]
  simp only [LOWER_OFFSET_OFFSET_def, UPPER_OFFSET_OFFSET_def, LOWER_OFFSET_SIZE_def,
    UPPER_OFFSET_SIZE_def, LINE_POINTER_OFFSET_SIZE_def, LINE_POINTER_SIZE_def,
    insertData, hw1, hw2, hw3, Nat.reduceAdd]
  rw [c1]
  simp only [Option.some_bind]
  rw [c2]
  simp only [Option.some_bind]
  rw [c3]
  simp only [Option.some_bind]
  rw [c4]
  simp only [Option.some_bind]
  rw [c5]
  simp only [Option.some_bind]

/-- Everything the five writes of a successful insert do to the buffer:
length, the two header fields, the new slot entry, the payload bytes,
and the frame (directory reads below the old `lower_offset` and bytes at
or above the old `upper_offset` are untouched). -/
theorem insertData_spec {d bs : List Nat} {L nu : Nat} (hd : d.length = PAGE_SIZE)
    (h26 : HEADER_SIZE ≤ L) (hL : L + LINE_POINTER_SIZE ≤ nu)
    (hnu : nu + bs.length ≤ PAGE_SIZE) :
    (insertData d L nu bs).length = PAGE_SIZE ∧
    readU32 (insertData d L nu bs) LOWER_OFFSET_OFFSET = L + LINE_POINTER_SIZE ∧
    readU32 (insertData d L nu bs) UPPER_OFFSET_OFFSET = nu ∧
    readU32 (insertData d L nu bs) L = nu ∧
    readU32 (insertData d L nu bs) (L + LINE_POINTER_OFFSET_SIZE) = bs.length ∧
    (∀ j, j < bs.length → byteAt (insertData d L nu bs) (nu + j) = byteAt bs j) ∧
    (∀ i, HEADER_SIZE ≤ i → i + 4 ≤ L → readU32 (insertData d L nu bs) i = readU32 d i) ∧
    (∀ i, nu + bs.length ≤ i → byteAt (insertData d L nu bs) i = byteAt d i) := by
  rw [PAGE_SIZE_def] at hd hnu
  rw [HEADER_SIZE_def] at h26
  rw [LINE_POINTER_SIZE_def] at hL
  simp only [insertData, LOWER_OFFSET_OFFSET_def, UPPER_OFFSET_OFFSET_def,
    LINE_POINTER_OFFSET_SIZE_def, LINE_POINTER_SIZE_def, HEADER_SIZE_def, PAGE_SIZE_def]
  have l1 : (writeAt d 18 (u32Bytes (L + 8))).length = 4096 :=
    length_writeAt_eq hd (by rw [length_u32Bytes]; omega)
  have l2 : (writeAt (writeAt d 18 (u32Bytes (L + 8))) 22 (u32Bytes nu)).length = 4096 :=
    length_writeAt_eq l1 (by rw [length_u32Bytes]; omega)
  have l3 : (writeAt (writeAt (writeAt d 18 (u32Bytes (L + 8))) 22 (u32Bytes nu)) L
      (u32Bytes nu)).length = 4096 :=
    length_writeAt_eq l2 (by rw [length_u32Bytes]; omega)
  have l4 : (writeAt (writeAt (writeAt (writeAt d 18 (u32Bytes (L + 8))) 22 (u32Bytes nu)) L
      (u32Bytes nu)) (L + 4) (u32Bytes bs.length)).length = 4096 :=
    length_writeAt_eq l3 (by rw [length_u32Bytes]; omega)
  refine ⟨?_, ?_, ?_, ?_, ?_, ?_, ?_, ?_⟩
  · exact length_writeAt_eq l4 (by omega)
  · rw [readU32_writeAt_lo (by rw [l4]; omega) (by omega),
      readU32_writeAt_lo (by rw [l3]; omega) (by omega),
      readU32_writeAt_lo (by rw [l2]; omega) (by omega),
      readU32_writeAt_lo (by rw [l1]; decide) (by decide),
      readU32_writeAt_u32Bytes (by omega) (by omega)]
  · rw [readU32_writeAt_lo (by rw [l4]; omega) (by omega),
      readU32_writeAt_lo (by rw [l3]; omega) (by omega),
      readU32_writeAt_lo (by rw [l2]; omega) (by omega),
      readU32_writeAt_u32Bytes (by rw [l1]; decide) (by omega)]
  · rw [readU32_writeAt_lo (by rw [l4]; omega) (by omega),
      readU32_writeAt_lo (by rw [l3]; omega) (by omega),
      readU32_writeAt_u32Bytes (by rw [l2]; omega) (by omega)]
  · rw [readU32_writeAt_lo (by rw [l4]; omega) (by omega),
      readU32_writeAt_u32Bytes (by rw [l3]; omega) (by omega)]
  · intro j hj
    rw [byteAt_writeAt_mid (by rw [l4]; omega) (by omega) (by omega)]
    have he : nu + j - nu = j := by omega
    rw [he]
  · intro i hi1 hi2
    rw [readU32_writeAt_lo (by rw [l4]; omega) (by omega),
      readU32_writeAt_lo (by rw [l3]; omega) (by omega),
      readU32_writeAt_lo (by rw [l2]; omega) (by omega),
      readU32_writeAt_hi (by rw [length_u32Bytes, l1]; decide) (by rw [length_u32Bytes]; omega),
      readU32_writeAt_hi (by rw [length_u32Bytes]; omega) (by rw [length_u32Bytes]; omega)]
  · intro i hi
    rw [byteAt_writeAt_hi (by rw [l4]; omega) (by omega),
      byteAt_writeAt_hi (by rw [length_u32Bytes, l3]; omega) (by rw [length_u32Bytes]; omega),
      byteAt_writeAt_hi (by rw [length_u32Bytes, l2]; omega) (by rw [length_u32Bytes]; omega),
      byteAt_writeAt_hi (by rw [length_u32Bytes, l1]; omega) (by rw [length_u32Bytes]; omega),
      byteAt_writeAt_hi (by rw [length_u32Bytes]; omega) (by rw [length_u32Bytes]; omega)]

/-- An `insert` that returns at all either failed the free-space guard,
left the page untouched and returned the `free space not enough` error,
or passed the guard and returned `Ok(())`. -/
theorem insert_cases {p : TablePage} {bs : List Nat} {q : TablePage} {r : Except String Unit}
    (h : p.insert bs = some (q, r)) :
    (p.free_space < bs.length + LINE_POINTER_SIZE ∧ q = p ∧
      r = Except.error "free space not enough") ∨
    (¬ p.free_space < bs.length + LINE_POINTER_SIZE ∧ r = Except.ok ()) := by
  unfold TablePage.insert at h
  by_cases hg : p.free_space < bs.length + LINE_POINTER_SIZE
  · rw [if_pos hg] at h
    simp only [Option.some.injEq, Prod.mk.injEq] at h
    exact Or.inl ⟨hg, h.1.symm, h.2.symm⟩
  · rw [if_neg hg] at h
    refine Or.inr ⟨hg, ?_⟩
    rcases Option.bind_eq_some.mp h with ⟨d1, _, h⟩
    rcases Option.bind_eq_some.mp h with ⟨d2, _, h⟩
    rcases Option.bind_eq_some.mp h with ⟨d3, _, h⟩
    rcases Option.bind_eq_some.mp h with ⟨d4, _, h⟩
    rcases Option.bind_eq_some.mp h with ⟨d5, _, h⟩
    simp only [Option.some.injEq, Prod.mk.injEq] at h
    exact h.2.symm

theorem insertOk_eq_some {p q : TablePage} {bs : List Nat} :
    insertOk p bs = some q ↔ p.insert bs = some (q, Except.ok ()) := by
  unfold insertOk
  cases hm : p.insert bs with
  | none => simp
  | some pr =>
    rcases pr with ⟨q2, r⟩
    cases r with
    | error e => simp
    | ok u =>
      cases u
      simp

/-! ## Characterization of slot reads, `get_tuple` and `delete` -/

theorem line_pointer_offset_eq {p : TablePage} {i : Nat}
    (h : HEADER_SIZE + i * LINE_POINTER_SIZE + LINE_POINTER_OFFSET_SIZE ≤ p.data.length) :
    p.line_pointer_offset i = some (slotOffset p i) := by
  simp only [TablePage.line_pointer_offset, slotOffset]
  rw [if_pos h]

theorem line_pointer_size_eq {p : TablePage} {i : Nat}
    (h : HEADER_SIZE + i * LINE_POINTER_SIZE + LINE_POINTER_OFFSET_SIZE +
      LINE_POINTER_SIZE_SIZE ≤ p.data.length) :
    p.line_pointer_size i = some (slotSize p i) := by
  simp only [TablePage.line_pointer_size, slotSize]
  rw [if_pos h]

theorem get_tuple_eq_some {p : TablePage} {i : Nat}
    (hlen : p.data.length = PAGE_SIZE)
    (hdir : HEADER_SIZE + i * LINE_POINTER_SIZE + LINE_POINTER_SIZE ≤ PAGE_SIZE)
    (hoff : slotOffset p i + slotSize p i ≤ PAGE_SIZE) :
    p.get_tuple i = some ((p.data.drop (slotOffset p i)).take (slotSize p i)) := by
  rw [PAGE_SIZE_def] at hlen hdir hoff
  rw [HEADER_SIZE_def, LINE_POINTER_SIZE_def] at hdir
  unfold TablePage.get_tuple
  rw [line_pointer_offset_eq (by
      rw [HEADER_SIZE_def, LINE_POINTER_SIZE_def, LINE_POINTER_OFFSET_SIZE_def, hlen]
      omega)]
  simp only [Option.some_bind]
  rw [line_pointer_size_eq (by
      rw [HEADER_SIZE_def, LINE_POINTER_SIZE_def, LINE_POINTER_OFFSET_SIZE_def,
        LINE_POINTER_SIZE_SIZE_def, hlen]
      omega)]
  simp only [Option.some_bind]
  rw [sliceRange_pos (by omega) (by omega)]
  rw [show slotOffset p i + slotSize p i - slotOffset p i = slotSize p i from by omega]

theorem delete_eq_some {p : TablePage} {i txn : Nat}
    (hlen : p.data.length = PAGE_SIZE)
    (hdir : HEADER_SIZE + i * LINE_POINTER_SIZE + LINE_POINTER_SIZE ≤ PAGE_SIZE)
    (hoff : slotOffset p i + slotSize p i ≤ PAGE_SIZE)
    (hsize : XMAX_OFFSET + XMAX_SIZE ≤ slotSize p i) :
    p.delete i txn =
      some ⟨writeAt p.data (slotOffset p i)
        (writeAt ((p.data.drop (slotOffset p i)).take (slotSize p i)) XMAX_OFFSET
          (u32Bytes (wrap32 txn)))⟩ := by
  rw [PAGE_SIZE_def] at hlen hdir hoff
  rw [HEADER_SIZE_def, LINE_POINTER_SIZE_def] at hdir
  rw [XMAX_OFFSET_def, XMAX_SIZE_def] at hsize
  have ht0 : ((p.data.drop (slotOffset p i)).take (slotSize p i)).length = slotSize p i :=
    length_dropTake (by omega)
  unfold TablePage.delete
  rw [line_pointer_offset_eq (by
      rw [HEADER_SIZE_def, LINE_POINTER_SIZE_def, LINE_POINTER_OFFSET_SIZE_def, hlen]
      omega)]
  simp only [Option.some_bind]
  rw [line_pointer_size_eq (by
      rw [HEADER_SIZE_def, LINE_POINTER_SIZE_def, LINE_POINTER_OFFSET_SIZE_def,
        LINE_POINTER_SIZE_SIZE_def, hlen]
      omega)]
  simp only [Option.some_bind]
  rw [sliceRange_pos (by omega) (by omega)]
  simp only [Option.some_bind]
  rw [show slotOffset p i + slotSize p i - slotOffset p i = slotSize p i from by omega]
  simp only [Tuple.set_xmax, Tuple.new, XMAX_OFFSET_def, XMAX_SIZE_def]
  rw [copyWithin_pos (by decide) (by rw [ht0]; omega) (by rw [length_u32Bytes])]
  simp only [Option.some_bind]
  rw [copyWithin_pos (by omega)
    (by rw [hlen]; omega)
    (by rw [length_writeAt (by rw [length_u32Bytes, ht0]; omega), ht0]; omega)]
  simp only [Option.some_bind]

/-! ## The layout after a sequence of inserts into a fresh page -/

theorem sizesSum_append (a b : List (List Nat)) :
    sizesSum (a ++ b) = sizesSum a + sizesSum b := by
  induction a with
  | nil => simp [sizesSum]
  | cons x xs ih =>
    simp only [List.cons_append, sizesSum, List.append_eq, ih]
    omega

theorem sizesSum_take_le (l : List (List Nat)) (n : Nat) :
    sizesSum (l.take n) ≤ sizesSum l := by
  conv_rhs => rw [← List.take_append_drop n l]
  rw [sizesSum_append]
  omega

theorem sizesSum_take_succ {l : List (List Nat)} {i : Nat} (h : i < l.length) :
    sizesSum (l.take (i + 1)) = sizesSum (l.take i) + (l.get ⟨i, h⟩).length := by
  rw [List.take_succ, sizesSum_append, List.getElem?_eq_getElem h]
  simp [Option.toList, sizesSum, List.get_eq_getElem]

theorem represents_new (pid : Nat) : Represents (TablePage.new pid) [] := by
  refine ⟨new_data_length pid, ?_, ?_, ?_, ?_⟩
  · rw [new_lower_offset]
    simp [sizesSum]
  · rw [new_upper_offset]
    simp [sizesSum]
  · simp only [List.length_nil, sizesSum]
    decide
  · intro i hi
    simp at hi

theorem get_append_lt {qs : List (List Nat)} {b : List Nat} {i : Nat} (hi : i < qs.length)
    (hi2 : i < (qs ++ [b]).length) : (qs ++ [b]).get ⟨i, hi2⟩ = qs.get ⟨i, hi⟩ := by
  simp [List.get_eq_getElem, List.getElem_append_left hi]

theorem get_concat {qs : List (List Nat)} {b : List Nat}
    (h : qs.length < (qs ++ [b]).length) : (qs ++ [b]).get ⟨qs.length, h⟩ = b := by
  simp [List.get_eq_getElem]

/-- One successful insert extends the represented payload sequence. -/
theorem represents_insert {p q : TablePage} {qs : List (List Nat)} {b : List Nat}
    (hr : Represents p qs) (h : insertOk p b = some q) :
    Represents q (qs ++ [b]) := by
  obtain ⟨hlen, hlow, hup, hbound, hslots⟩ := hr
  have hins := insertOk_eq_some.mp h
  rcases insert_cases hins with ⟨_, _, hre⟩ | ⟨hg, _⟩
  · exact absurd hre (by simp)
  rw [PAGE_SIZE_def] at hlen
  rw [HEADER_SIZE_def, LINE_POINTER_SIZE_def] at hlow
  rw [PAGE_SIZE_def] at hup
  rw [HEADER_SIZE_def, LINE_POINTER_SIZE_def, PAGE_SIZE_def] at hbound
  have hLU : p.lower_offset ≤ p.upper_offset := by omega
  have hU32 : p.upper_offset < 4294967296 := by omega
  have hfs : p.free_space = p.upper_offset - p.lower_offset := by
    unfold TablePage.free_space
    exact sub32_eq hLU hU32
  rw [hfs, LINE_POINTER_SIZE_def] at hg
  have hfit : p.lower_offset + 8 + b.length ≤ p.upper_offset := by omega
  have he := insert_eq_some (p := p) (show p.data.length = PAGE_SIZE by
      rw [PAGE_SIZE_def]; exact hlen)
    (show HEADER_SIZE ≤ p.lower_offset by rw [HEADER_SIZE_def]; omega)
    (show p.lower_offset + LINE_POINTER_SIZE + b.length ≤ p.upper_offset by
      rw [LINE_POINTER_SIZE_def]; omega)
    (show p.upper_offset ≤ PAGE_SIZE by rw [PAGE_SIZE_def]; omega)
  rw [he] at hins
  simp only [Option.some.injEq, Prod.mk.injEq] at hins
  obtain ⟨hq, _⟩ := hins
  have hqd : q.data = insertData p.data p.lower_offset (p.upper_offset - b.length) b := by
    rw [← hq]
  obtain ⟨s1, s2, s3, s4, s5, s6, s7, s8⟩ :=
    insertData_spec (show p.data.length = PAGE_SIZE by rw [PAGE_SIZE_def]; exact hlen)
      (show HEADER_SIZE ≤ p.lower_offset by rw [HEADER_SIZE_def]; omega)
      (show p.lower_offset + LINE_POINTER_SIZE ≤ p.upper_offset - b.length by
        rw [LINE_POINTER_SIZE_def]; omega)
      (show p.upper_offset - b.length + b.length ≤ PAGE_SIZE by rw [PAGE_SIZE_def]; omega)
  rw [LINE_POINTER_SIZE_def] at s2
  rw [LINE_POINTER_OFFSET_SIZE_def] at s5
  rw [HEADER_SIZE_def] at s7
  refine ⟨?_, ?_, ?_, ?_, ?_⟩
  · rw [hqd, s1]
  · unfold TablePage.lower_offset
    rw [hqd, s2, HEADER_SIZE_def, LINE_POINTER_SIZE_def, List.length_append]
    simp only [List.length_cons, List.length_nil]
    omega
  · unfold TablePage.upper_offset
    rw [hqd, s3, sizesSum_append, PAGE_SIZE_def]
    simp only [sizesSum]
    omega
  · rw [List.length_append, sizesSum_append, PAGE_SIZE_def, HEADER_SIZE_def,
      LINE_POINTER_SIZE_def]
    simp only [List.length_cons, List.length_nil, sizesSum]
    omega
  · intro i hi
    have hi2 : i < qs.length + 1 := by
      simpa using hi
    by_cases hik : i < qs.length
    · obtain ⟨ho, hs, hbytes⟩ := hslots i hik
      have hPO : p.upper_offset ≤ payloadOffset qs i := by
        have := sizesSum_take_le qs (i + 1)
        unfold payloadOffset
        rw [PAGE_SIZE_def]
        omega
      have hso : slotOffset q i = slotOffset p i := by
        unfold slotOffset
        rw [hqd, HEADER_SIZE_def, LINE_POINTER_SIZE_def]
        exact s7 _ (by omega) (by omega)
      have hss : slotSize q i = slotSize p i := by
        unfold slotSize
        rw [hqd, HEADER_SIZE_def, LINE_POINTER_SIZE_def, LINE_POINTER_OFFSET_SIZE_def]
        exact s7 _ (by omega) (by omega)
      have hpo2 : payloadOffset (qs ++ [b]) i = payloadOffset qs i := by
        unfold payloadOffset
        rw [List.take_append_of_le_length (by omega)]
      refine ⟨?_, ?_, ?_⟩
      · rw [hso, hpo2]
        exact ho
      · rw [hss, get_append_lt hik]
        exact hs
      · intro j hj
        rw [get_append_lt hik] at hj ⊢
        rw [hpo2, hqd, s8 _ (by omega)]
        exact hbytes j hj
    · have hik2 : i = qs.length := by omega
      subst hik2
      have hL : HEADER_SIZE + qs.length * LINE_POINTER_SIZE = p.lower_offset := by
        rw [HEADER_SIZE_def, LINE_POINTER_SIZE_def]
        omega
      have hso : slotOffset q qs.length = p.upper_offset - b.length := by
        unfold slotOffset
        rw [hqd, hL]
        exact s4
      have hss : slotSize q qs.length = b.length := by
        unfold slotSize
        rw [hqd, hL, LINE_POINTER_OFFSET_SIZE_def]
        exact s5
      have hpo : payloadOffset (qs ++ [b]) qs.length = p.upper_offset - b.length := by
        unfold payloadOffset
        rw [List.take_of_length_le (by simp), sizesSum_append, PAGE_SIZE_def]
        simp only [sizesSum]
        omega
      have hget : (qs ++ [b]).get ⟨qs.length, hi⟩ = b := get_concat _
      refine ⟨?_, ?_, ?_⟩
      · rw [hso, hpo]
      · rw [hss, hget]
      · intro j hj
        rw [hget] at hj ⊢
        rw [hpo, hqd]
        exact s6 j hj

theorem insertAll_represents {ps : List (List Nat)} :
    ∀ {qs : List (List Nat)} {p p2 : TablePage}, Represents p qs →
      insertAll p ps = some p2 → Represents p2 (qs ++ ps) := by
  induction ps with
  | nil =>
    intro qs p p2 hr h
    simp only [insertAll, Option.some.injEq] at h
    subst h
    simpa using hr
  | cons b bs ih =>
    intro qs p p2 hr h
    simp only [insertAll] at h
    rcases Option.bind_eq_some.mp h with ⟨q, hq, h2⟩
    have hr2 := represents_insert hr hq
    have hr3 := ih hr2 h2
    rw [List.append_assoc] at hr3
    simpa using hr3

theorem represents_tuple_count {p : TablePage} {ps : List (List Nat)}
    (hr : Represents p ps) : p.tuple_count = ps.length := by
  obtain ⟨_, hlow, _, _, _⟩ := hr
  unfold TablePage.tuple_count
  rw [hlow, HEADER_SIZE_def, LINE_POINTER_SIZE_def]
  omega

theorem represents_get_tuple {p : TablePage} {ps : List (List Nat)}
    (hr : Represents p ps) {i : Nat} (hi : i < ps.length) :
    p.get_tuple i = some (ps.get ⟨i, hi⟩) := by
  obtain ⟨hlen, hlow, hup, hbound, hslots⟩ := hr
  obtain ⟨ho, hs, hbytes⟩ := hslots i hi
  have hsucc := sizesSum_take_succ hi
  have htle := sizesSum_take_le ps (i + 1)
  have hdir : HEADER_SIZE + i * LINE_POINTER_SIZE + LINE_POINTER_SIZE ≤ PAGE_SIZE := by
    rw [HEADER_SIZE_def, LINE_POINTER_SIZE_def, PAGE_SIZE_def]
    rw [HEADER_SIZE_def, LINE_POINTER_SIZE_def, PAGE_SIZE_def] at hbound
    omega
  have hoff : slotOffset p i + slotSize p i ≤ PAGE_SIZE := by
    rw [ho, hs]
    unfold payloadOffset
    rw [PAGE_SIZE_def] at hbound ⊢
    omega
  rw [get_tuple_eq_some hlen hdir hoff, ho, hs]
  refine congrArg some (list_eq_of_byteAt ?_ ?_)
  · rw [length_dropTake]
    rw [hlen]
    unfold payloadOffset
    rw [PAGE_SIZE_def] at hbound ⊢
    omega
  · intro j hj
    rw [length_dropTake (by
        rw [hlen]
        unfold payloadOffset
        rw [PAGE_SIZE_def] at hbound ⊢
        omega)] at hj
    rw [byteAt_dropTake hj]
    exact hbytes j hj

theorem get_tuples_from_spec (p : TablePage) :
    ∀ (n s : Nat) (l : List (List Nat)), l.length = n →
      (∀ j, j < n → p.get_tuple (s + j) = some (l.getD j [])) →
      p.get_tuples_from s n = some l := by
  intro n
  induction n with
  | zero =>
    intro s l hl _
    rw [List.length_eq_zero] at hl
    subst hl
    rfl
  | succ m ih =>
    intro s l hl hj
    cases l with
    | nil => simp at hl
    | cons t rest =>
      have h0 := hj 0 (by omega)
      rw [Nat.add_zero, List.getD_cons_zero] at h0
      unfold TablePage.get_tuples_from
      rw [h0]
      simp only [Option.some_bind]
      rw [ih (s + 1) rest (by simpa using hl) ?_]
      · simp only [Option.some_bind]
      · intro j hjm
        have hx := hj (j + 1) (by omega)
        rw [show s + (j + 1) = s + 1 + j from by omega, List.getD_cons_succ] at hx
        exact hx

theorem represents_get_tuples {p : TablePage} {ps : List (List Nat)}
    (hr : Represents p ps) : p.get_tuples = some ps := by
  unfold TablePage.get_tuples
  rw [represents_tuple_count hr]
  refine get_tuples_from_spec p ps.length 0 ps rfl ?_
  intro j hj
  rw [Nat.zero_add, represents_get_tuple hr hj]
  refine congrArg some ?_
  rw [List.getD_eq_getElem?_getD, List.getElem?_eq_getElem hj]
  simp [List.get_eq_getElem]

/-! ## The concrete E2 page -/

theorem e2payloadA_length : e2payloadA.length = 20 := by
  simp [e2payloadA]

theorem e2payloadB_length : e2payloadB.length = 30 := by
  simp [e2payloadB]

theorem e2_step1 : (TablePage.new 0).insert e2payloadA =
    some (⟨insertData (TablePage.new 0).data 26 4076 e2payloadA⟩, Except.ok ()) := by
  have h := @insert_eq_some (TablePage.new 0) e2payloadA (new_data_length 0)
    (by rw [new_lower_offset])
    (by rw [new_lower_offset, new_upper_offset, e2payloadA_length]; decide)
    (by rw [new_upper_offset])
  rw [new_lower_offset, new_upper_offset, HEADER_SIZE_def, PAGE_SIZE_def,
    e2payloadA_length] at h
  norm_num at h
  exact h

theorem e2mid_represents :
    Represents ⟨insertData (TablePage.new 0).data 26 4076 e2payloadA⟩ [e2payloadA] := by
  have h := represents_insert (represents_new 0) (insertOk_eq_some.mpr e2_step1)
  simpa using h

theorem e2_step2 :
    TablePage.insert ⟨insertData (TablePage.new 0).data 26 4076 e2payloadA⟩ e2payloadB =
      some (e2page, Except.ok ()) := by
  obtain ⟨m1, m2, m3, m4, _⟩ := e2mid_represents
  have hml : TablePage.lower_offset
      ⟨insertData (TablePage.new 0).data 26 4076 e2payloadA⟩ = 34 := by
    rw [m2, HEADER_SIZE_def, LINE_POINTER_SIZE_def]
    simp
  have hmu : TablePage.upper_offset
      ⟨insertData (TablePage.new 0).data 26 4076 e2payloadA⟩ = 4076 := by
    rw [m3, PAGE_SIZE_def]
    simp [sizesSum, e2payloadA_length]
  have h := @insert_eq_some ⟨insertData (TablePage.new 0).data 26 4076 e2payloadA⟩
    e2payloadB m1
    (by rw [hml, HEADER_SIZE_def]; decide)
    (by rw [hml, hmu, LINE_POINTER_SIZE_def, e2payloadB_length]; decide)
    (by rw [hmu, PAGE_SIZE_def]; decide)
  rw [hml, hmu, e2payloadB_length] at h
  norm_num at h
  exact h

theorem e2_insertAll : insertAll (TablePage.new 0) [e2payloadA, e2payloadB] = some e2page := by
  simp only [insertAll]
  rw [insertOk_eq_some.mpr e2_step1]
  simp only [Option.some_bind]
  rw [insertOk_eq_some.mpr e2_step2]
  simp only [Option.some_bind]

theorem e2_represents : Represents e2page [e2payloadA, e2payloadB] := by
  have h := insertAll_represents (represents_new 0) e2_insertAll
  simpa using h

theorem e2_fields :
    e2page.data.length = PAGE_SIZE ∧ e2page.lower_offset = 42 ∧ e2page.upper_offset = 4046 ∧
    slotOffset e2page 0 = 4076 ∧ slotSize e2page 0 = 20 ∧ slotOffset e2page 1 = 4046 ∧
    slotSize e2page 1 = 30 := by
  obtain ⟨m1, m2, m3, _, mslots⟩ := e2_represents
  obtain ⟨o0, s0, _⟩ := mslots 0 (by simp)
  obtain ⟨o1, s1, _⟩ := mslots 1 (by simp)
  refine ⟨m1, ?_, ?_, ?_, ?_, ?_, ?_⟩
  · rw [m2, HEADER_SIZE_def, LINE_POINTER_SIZE_def]
    simp
  · rw [m3, PAGE_SIZE_def]
    simp [sizesSum, e2payloadA_length, e2payloadB_length]
  · rw [o0]
    unfold payloadOffset
    rw [PAGE_SIZE_def]
    simp [sizesSum, e2payloadA_length]
  · rw [s0]
    simp [List.get_eq_getElem, e2payloadA_length]
  · rw [o1]
    unfold payloadOffset
    rw [PAGE_SIZE_def]
    simp [sizesSum, e2payloadA_length, e2payloadB_length]
  · rw [s1]
    simp [List.get_eq_getElem, e2payloadB_length]

theorem e2_tuple_count : e2page.tuple_count = 2 := by
  unfold TablePage.tuple_count
  rw [e2_fields.2.1, HEADER_SIZE_def, LINE_POINTER_SIZE_def]

theorem e2_WF : WF e2page := by
  refine ⟨e2_fields.1, ?_, ?_, ?_⟩
  · rw [e2_fields.2.1, HEADER_SIZE_def]
    decide
  · rw [e2_fields.2.1, e2_fields.2.2.1]
    decide
  · rw [e2_fields.2.2.1, PAGE_SIZE_def]
    decide

theorem e2_PageInv : PageInv e2page := by
  refine ⟨?_, ?_, ?_, ?_⟩
  · rw [e2_fields.2.1, HEADER_SIZE_def]
    decide
  · rw [e2_fields.2.1, e2_fields.2.2.1]
    decide
  · rw [e2_fields.2.2.1, PAGE_SIZE_def]
    decide
  · rw [e2_fields.2.1, HEADER_SIZE_def, LINE_POINTER_SIZE_def]

theorem e2_SlotsValid : SlotsValid e2page := by
  intro i hi
  rw [e2_tuple_count] at hi
  interval_cases i
  · refine ⟨?_, ?_, ?_⟩
    · rw [e2_fields.2.2.1, e2_fields.2.2.2.1]
      decide
    · rw [e2_fields.2.2.2.1, e2_fields.2.2.2.2.1, PAGE_SIZE_def]
    · rw [e2_fields.2.2.2.2.1, XMAX_OFFSET_def, XMAX_SIZE_def]
      decide
  · refine ⟨?_, ?_, ?_⟩
    · rw [e2_fields.2.2.1, e2_fields.2.2.2.2.2.1]
    · rw [e2_fields.2.2.2.2.2.1, e2_fields.2.2.2.2.2.2, PAGE_SIZE_def]
      decide
    · rw [e2_fields.2.2.2.2.2.2, XMAX_OFFSET_def, XMAX_SIZE_def]
      decide

theorem copyWithin_none {d src : List Nat} {a b : Nat}
    (h : ¬(a ≤ b ∧ b ≤ d.length ∧ src.length = b - a)) :
    copyWithin d a b src = none := by
  unfold copyWithin
  rw [if_neg h]

/-- Full characterization of `delete` on a slot whose range lies inside
the buffer and is at least the 8-byte MVCC header: it succeeds, the four
`xmax` bytes of the tuple become the little-endian transaction id, and
every other byte of the page is untouched. -/
theorem delete_spec {p : TablePage} {i txn : Nat} (hlen : p.data.length = PAGE_SIZE)
    (hl26 : HEADER_SIZE ≤ p.lower_offset) (hlP : p.lower_offset ≤ PAGE_SIZE)
    (hcount : i < p.tuple_count)
    (hoff : slotOffset p i + slotSize p i ≤ PAGE_SIZE)
    (hsize : XMAX_OFFSET + XMAX_SIZE ≤ slotSize p i) :
    ∃ q, p.delete i txn = some q ∧ q.data.length = PAGE_SIZE ∧
      (∀ j, j < XMAX_SIZE →
        byteAt q.data (slotOffset p i + XMAX_OFFSET + j) = byteAt (u32Bytes (wrap32 txn)) j) ∧
      (∀ j, j < slotOffset p i + XMAX_OFFSET ∨ slotOffset p i + XMAX_OFFSET + XMAX_SIZE ≤ j →
        byteAt q.data j = byteAt p.data j) := by
  have hdiv : HEADER_SIZE + i * LINE_POINTER_SIZE + LINE_POINTER_SIZE ≤ p.lower_offset := by
    unfold TablePage.tuple_count at hcount
    rw [HEADER_SIZE_def, LINE_POINTER_SIZE_def] at hcount ⊢
    omega
  have hdir2 : HEADER_SIZE + i * LINE_POINTER_SIZE + LINE_POINTER_SIZE ≤ PAGE_SIZE :=
    le_trans hdiv hlP
  have hq := @delete_eq_some p i txn hlen hdir2 hoff hsize
  rw [XMAX_OFFSET_def, XMAX_SIZE_def] at hsize
  rw [XMAX_OFFSET_def] at hq
  have hoP : slotOffset p i + slotSize p i ≤ p.data.length := by
    rw [hlen]
    exact hoff
  have ht0 : ((p.data.drop (slotOffset p i)).take (slotSize p i)).length = slotSize p i :=
    length_dropTake hoP
  have ht1 : (writeAt ((p.data.drop (slotOffset p i)).take (slotSize p i)) 4
      (u32Bytes (wrap32 txn))).length = slotSize p i :=
    length_writeAt_eq ht0 (by rw [length_u32Bytes]; omega)
  refine ⟨_, hq, ?_, ?_, ?_⟩
  · show (writeAt p.data (slotOffset p i)
      (writeAt ((p.data.drop (slotOffset p i)).take (slotSize p i)) 4
        (u32Bytes (wrap32 txn)))).length = PAGE_SIZE
    rw [length_writeAt (by rw [ht1]; omega), hlen]
  · intro j hj
    rw [XMAX_SIZE_def] at hj
    rw [XMAX_OFFSET_def]
    show byteAt (writeAt p.data (slotOffset p i)
      (writeAt ((p.data.drop (slotOffset p i)).take (slotSize p i)) 4
        (u32Bytes (wrap32 txn)))) (slotOffset p i + 4 + j) = _
    rw [byteAt_writeAt_mid (by omega) (by omega) (by rw [ht1]; omega)]
    rw [show slotOffset p i + 4 + j - slotOffset p i = 4 + j from by omega]
    rw [byteAt_writeAt_mid (by rw [ht0]; omega) (by omega)
      (by rw [length_u32Bytes]; omega)]
    rw [show 4 + j - 4 = j from by omega]
  · intro j hj
    rw [XMAX_OFFSET_def, XMAX_SIZE_def] at hj
    show byteAt (writeAt p.data (slotOffset p i)
      (writeAt ((p.data.drop (slotOffset p i)).take (slotSize p i)) 4
        (u32Bytes (wrap32 txn)))) j = byteAt p.data j
    rcases hj with hj | hj
    · by_cases hjo : j < slotOffset p i
      · rw [byteAt_writeAt_lo (by omega) hjo]
      · rw [byteAt_writeAt_mid (by omega) (by omega) (by rw [ht1]; omega)]
        rw [byteAt_writeAt_lo (by rw [ht0]; omega) (by omega)]
        rw [byteAt_dropTake (by omega)]
        rw [show slotOffset p i + (j - slotOffset p i) = j from by omega]
    · by_cases hjs : j < slotOffset p i + slotSize p i
      · rw [byteAt_writeAt_mid (by omega) (by omega) (by rw [ht1]; omega)]
        rw [byteAt_writeAt_hi (by rw [length_u32Bytes, ht0]; omega)
          (by rw [length_u32Bytes]; omega)]
        rw [byteAt_dropTake (by omega)]
        rw [show slotOffset p i + (j - slotOffset p i) = j from by omega]
      · rw [byteAt_writeAt_hi (by rw [ht1]; omega) (by rw [ht1]; omega)]

/-- `Tuple::set_xmax` panics on a buffer shorter than the MVCC header. -/
theorem set_xmax_short (rid : Option (Nat × Nat)) (t : List Nat) (txn : Nat)
    (h : t.length < 8) : Tuple.set_xmax (Tuple.new rid t) txn = none := by
  have hne : ¬(XMAX_OFFSET ≤ XMAX_OFFSET + XMAX_SIZE ∧
      XMAX_OFFSET + XMAX_SIZE ≤ (Tuple.new rid t).data.length ∧
      (u32Bytes (wrap32 txn)).length = XMAX_OFFSET + XMAX_SIZE - XMAX_OFFSET) := by
    have hdl : (Tuple.new rid t).data.length = t.length := rfl
    rw [XMAX_OFFSET_def, XMAX_SIZE_def, hdl]
    intro hcon
    omega
  unfold Tuple.set_xmax
  rw [copyWithin_none hne]
  simp only [Option.none_bind]

/-- Under the spec's slot invariant a delete never touches the page
header: both offsets (hence also the free space) are unchanged. -/
theorem delete_preserves_header {p q : TablePage} {i txn : Nat}
    (hlen : p.data.length = PAGE_SIZE) (hinv : PageInv p) (hslots : SlotsValid p)
    (hcount : i < p.tuple_count) (hdel : p.delete i txn = some q) :
    q.lower_offset = p.lower_offset ∧ q.upper_offset = p.upper_offset ∧
      q.data.length = PAGE_SIZE := by
  obtain ⟨h26, hLU, hUP, _⟩ := hinv
  obtain ⟨hup, hoff, hsize⟩ := hslots i hcount
  obtain ⟨q2, hq2, hqlen, _, hframe⟩ :=
    delete_spec hlen h26 (le_trans hLU hUP) hcount hoff hsize
  rw [hdel] at hq2
  simp only [Option.some.injEq] at hq2
  subst hq2
  rw [HEADER_SIZE_def] at h26
  have hb : ∀ k, k < 26 → byteAt q.data k = byteAt p.data k := by
    intro k hk
    refine hframe k (Or.inl ?_)
    rw [XMAX_OFFSET_def]
    omega
  refine ⟨?_, ?_, hqlen⟩
  · unfold TablePage.lower_offset readU32
    rw [LOWER_OFFSET_OFFSET_def]
    rw [hb 18 (by omega), hb (18 + 1) (by omega), hb (18 + 2) (by omega),
      hb (18 + 3) (by omega)]
  · unfold TablePage.upper_offset readU32
    rw [UPPER_OFFSET_OFFSET_def]
    rw [hb 22 (by omega), hb (22 + 1) (by omega), hb (22 + 2) (by omega),
      hb (22 + 3) (by omega)]

/-! ## The concrete pages for the error and invariant claims -/

theorem fullPage_length : fullPage.data.length = PAGE_SIZE := by
  simp only [fullPage, LOWER_OFFSET_OFFSET_def, UPPER_OFFSET_OFFSET_def, PAGE_SIZE_def]
  refine length_writeAt_eq (length_writeAt_eq (by rw [List.length_replicate])
    (by rw [length_u32Bytes]; decide)) (by rw [length_u32Bytes]; decide)

theorem fullPage_lower : fullPage.lower_offset = PAGE_SIZE := by
  have l1 : (writeAt (List.replicate 4096 0) 18 (u32Bytes 4096)).length = 4096 :=
    length_writeAt_eq (by rw [List.length_replicate]) (by rw [length_u32Bytes]; decide)
  simp only [fullPage, TablePage.lower_offset, LOWER_OFFSET_OFFSET_def,
    UPPER_OFFSET_OFFSET_def, PAGE_SIZE_def]
  rw [readU32_writeAt_lo (by rw [l1]; decide) (by decide),
    readU32_writeAt_u32Bytes (by rw [List.length_replicate]; decide) (by decide)]

theorem fullPage_upper : fullPage.upper_offset = PAGE_SIZE := by
  have l1 : (writeAt (List.replicate 4096 0) 18 (u32Bytes 4096)).length = 4096 :=
    length_writeAt_eq (by rw [List.length_replicate]) (by rw [length_u32Bytes]; decide)
  simp only [fullPage, TablePage.upper_offset, LOWER_OFFSET_OFFSET_def,
    UPPER_OFFSET_OFFSET_def, PAGE_SIZE_def]
  rw [readU32_writeAt_u32Bytes (by rw [l1]; decide) (by decide)]

theorem fullPage_free : fullPage.free_space = 0 := by
  unfold TablePage.free_space
  rw [fullPage_lower, fullPage_upper, PAGE_SIZE_def]
  decide

theorem fullPage_insert_err :
    fullPage.insert [] = some (fullPage, Except.error "free space not enough") := by
  unfold TablePage.insert
  rw [if_pos (by rw [fullPage_free]; decide)]

theorem c4_fields :
    c4page.data.length = PAGE_SIZE ∧ c4page.lower_offset = 34 ∧
    c4page.upper_offset = 4096 ∧ slotOffset c4page 0 = 18 ∧ slotSize c4page 0 = 8 := by
  simp only [c4page, TablePage.lower_offset, TablePage.upper_offset, slotOffset, slotSize,
    LOWER_OFFSET_OFFSET_def, UPPER_OFFSET_OFFSET_def, HEADER_SIZE_def, LINE_POINTER_SIZE_def,
    LINE_POINTER_OFFSET_SIZE_def, PAGE_SIZE_def, Nat.reduceAdd, Nat.reduceMul, Nat.zero_mul,
    Nat.add_zero]
  have r0 : (List.replicate (4096 : Nat) (0 : Nat)).length = 4096 := by
    rw [List.length_replicate]
  have hl1 : (writeAt (List.replicate 4096 0) 18 (u32Bytes 34)).length = 4096 :=
    length_writeAt_eq r0 (by rw [length_u32Bytes]; decide)
  have hl2 : (writeAt (writeAt (List.replicate 4096 0) 18 (u32Bytes 34)) 22
      (u32Bytes 4096)).length = 4096 :=
    length_writeAt_eq hl1 (by rw [length_u32Bytes]; decide)
  have hl3 : (writeAt (writeAt (writeAt (List.replicate 4096 0) 18 (u32Bytes 34)) 22
      (u32Bytes 4096)) 26 (u32Bytes 18)).length = 4096 :=
    length_writeAt_eq hl2 (by rw [length_u32Bytes]; decide)
  refine ⟨?_, ?_, ?_, ?_, ?_⟩
  · exact length_writeAt_eq hl3 (by rw [length_u32Bytes]; decide)
  · rw [readU32_writeAt_lo (by rw [hl3]; decide) (by decide),
      readU32_writeAt_lo (by rw [hl2]; decide) (by decide),
      readU32_writeAt_lo (by rw [hl1]; decide) (by decide),
      readU32_writeAt_u32Bytes (by rw [r0]; decide) (by decide)]
  · rw [readU32_writeAt_lo (by rw [hl3]; decide) (by decide),
      readU32_writeAt_lo (by rw [hl2]; decide) (by decide),
      readU32_writeAt_u32Bytes (by rw [hl1]; decide) (by decide)]
  · rw [readU32_writeAt_lo (by rw [hl3]; decide) (by decide),
      readU32_writeAt_u32Bytes (by rw [hl2]; decide) (by decide)]
  · rw [readU32_writeAt_u32Bytes (by rw [hl3]; decide) (by decide)]

theorem c4_PageInv : PageInv c4page := by
  refine ⟨?_, ?_, ?_, ?_⟩
  · rw [c4_fields.2.1, HEADER_SIZE_def]
    decide
  · rw [c4_fields.2.1, c4_fields.2.2.1]
    decide
  · rw [c4_fields.2.2.1, PAGE_SIZE_def]
  · rw [c4_fields.2.1, HEADER_SIZE_def, LINE_POINTER_SIZE_def]

theorem c4_tuple_count : c4page.tuple_count = 1 := by
  unfold TablePage.tuple_count
  rw [c4_fields.2.1, HEADER_SIZE_def, LINE_POINTER_SIZE_def]

theorem c4_delete : c4page.delete 0 0 =
    some ⟨writeAt c4page.data 18
      (writeAt ((c4page.data.drop 18).take 8) 4 (u32Bytes (wrap32 0)))⟩ := by
  have h := @delete_eq_some c4page 0 0 c4_fields.1
    (by rw [HEADER_SIZE_def, LINE_POINTER_SIZE_def, PAGE_SIZE_def]; decide)
    (by rw [c4_fields.2.2.2.1, c4_fields.2.2.2.2, PAGE_SIZE_def]; decide)
    (by rw [c4_fields.2.2.2.2, XMAX_OFFSET_def, XMAX_SIZE_def])
  rw [c4_fields.2.2.2.1, c4_fields.2.2.2.2, XMAX_OFFSET_def] at h
  exact h

theorem c4_after_upper : ∀ q, c4page.delete 0 0 = some q → q.upper_offset = 0 := by
  intro q hq
  rw [c4_delete] at hq
  simp only [Option.some.injEq] at hq
  have hqd : q.data = writeAt c4page.data 18
      (writeAt ((c4page.data.drop 18).take 8) 4 (u32Bytes (wrap32 0))) := by
    rw [← hq]
  have hc4len : c4page.data.length = 4096 := by
    have h := c4_fields.1
    rw [PAGE_SIZE_def] at h
    exact h
  have ht0 : ((c4page.data.drop 18).take 8).length = 8 :=
    length_dropTake (by rw [hc4len]; decide)
  have ht1 : (writeAt ((c4page.data.drop 18).take 8) 4 (u32Bytes (wrap32 0))).length = 8 :=
    length_writeAt_eq ht0 (by rw [length_u32Bytes])
  have hbyte : ∀ k, 4 ≤ k → k < 8 →
      byteAt (writeAt c4page.data 18
        (writeAt ((c4page.data.drop 18).take 8) 4 (u32Bytes (wrap32 0)))) (18 + k) =
        byteAt (u32Bytes (wrap32 0)) (k - 4) := by
    intro k h1 h2
    rw [byteAt_writeAt_mid (by rw [hc4len]; omega) (by omega) (by rw [ht1]; omega)]
    rw [show 18 + k - 18 = k from by omega]
    rw [byteAt_writeAt_mid (by rw [ht0]; omega) h1 (by rw [length_u32Bytes]; omega)]
  have e22 : ∀ m, 22 ≤ m → m < 26 →
      byteAt (writeAt c4page.data 18
        (writeAt ((c4page.data.drop 18).take 8) 4 (u32Bytes (wrap32 0)))) m = 0 := by
    intro m h1 h2
    have h := hbyte (m - 18) (by omega) (by omega)
    rw [show 18 + (m - 18) = m from by omega] at h
    rw [h]
    have : m - 18 - 4 < 4 := by omega
    interval_cases h3 : m - 18 - 4 <;> decide
  unfold TablePage.upper_offset readU32
  rw [UPPER_OFFSET_OFFSET_def, hqd]
  rw [e22 22 (by decide) (by decide), e22 23 (by decide) (by decide),
    e22 24 (by decide) (by decide), e22 25 (by decide) (by decide)]

theorem c10_fields :
    c10page.data.length = PAGE_SIZE ∧ c10page.lower_offset = 34 ∧
    c10page.upper_offset = 4090 ∧ slotOffset c10page 0 = 4090 ∧ slotSize c10page 0 = 6 := by
  simp only [c10page, TablePage.lower_offset, TablePage.upper_offset, slotOffset, slotSize,
    LOWER_OFFSET_OFFSET_def, UPPER_OFFSET_OFFSET_def, HEADER_SIZE_def, LINE_POINTER_SIZE_def,
    LINE_POINTER_OFFSET_SIZE_def, PAGE_SIZE_def, Nat.reduceAdd, Nat.reduceMul, Nat.zero_mul,
    Nat.add_zero, Nat.reduceSub]
  have r0 : (List.replicate (4096 : Nat) (0 : Nat)).length = 4096 := by
    rw [List.length_replicate]
  have hl1 : (writeAt (List.replicate 4096 0) 18 (u32Bytes 34)).length = 4096 :=
    length_writeAt_eq r0 (by rw [length_u32Bytes]; decide)
  have hl2 : (writeAt (writeAt (List.replicate 4096 0) 18 (u32Bytes 34)) 22
      (u32Bytes 4090)).length = 4096 :=
    length_writeAt_eq hl1 (by rw [length_u32Bytes]; decide)
  have hl3 : (writeAt (writeAt (writeAt (List.replicate 4096 0) 18 (u32Bytes 34)) 22
      (u32Bytes 4090)) 26 (u32Bytes 4090)).length = 4096 :=
    length_writeAt_eq hl2 (by rw [length_u32Bytes]; decide)
  refine ⟨?_, ?_, ?_, ?_, ?_⟩
  · exact length_writeAt_eq hl3 (by rw [length_u32Bytes]; decide)
  · rw [readU32_writeAt_lo (by rw [hl3]; decide) (by decide),
      readU32_writeAt_lo (by rw [hl2]; decide) (by decide),
      readU32_writeAt_lo (by rw [hl1]; decide) (by decide),
      readU32_writeAt_u32Bytes (by rw [r0]; decide) (by decide)]
  · rw [readU32_writeAt_lo (by rw [hl3]; decide) (by decide),
      readU32_writeAt_lo (by rw [hl2]; decide) (by decide),
      readU32_writeAt_u32Bytes (by rw [hl1]; decide) (by decide)]
  · rw [readU32_writeAt_lo (by rw [hl3]; decide) (by decide),
      readU32_writeAt_u32Bytes (by rw [hl2]; decide) (by decide)]
  · rw [readU32_writeAt_u32Bytes (by rw [hl3]; decide) (by decide)]

theorem c10_tuple_count : c10page.tuple_count = 1 := by
  unfold TablePage.tuple_count
  rw [c10_fields.2.1, HEADER_SIZE_def, LINE_POINTER_SIZE_def]

theorem c10_delete_none : c10page.delete 0 7 = none := by
  have hlen : c10page.data.length = 4096 := by
    have h := c10_fields.1
    rw [PAGE_SIZE_def] at h
    exact h
  unfold TablePage.delete
  rw [line_pointer_offset_eq (by
      rw [HEADER_SIZE_def, LINE_POINTER_SIZE_def, LINE_POINTER_OFFSET_SIZE_def, hlen]
      decide)]
  simp only [Option.some_bind]
  rw [line_pointer_size_eq (by
      rw [HEADER_SIZE_def, LINE_POINTER_SIZE_def, LINE_POINTER_OFFSET_SIZE_def,
        LINE_POINTER_SIZE_SIZE_def, hlen]
      decide)]
  simp only [Option.some_bind]
  rw [c10_fields.2.2.2.1, c10_fields.2.2.2.2]
  rw [sliceRange_pos (by decide) (by rw [hlen])]
  simp only [Option.some_bind]
  have ht0 : ((c10page.data.drop 4090).take (4090 + 6 - 4090)).length = 6 :=
    length_dropTake (by rw [hlen])
  rw [set_xmax_short none ((c10page.data.drop 4090).take (4090 + 6 - 4090)) 7
    (by rw [ht0]; decide)]
  simp only [Option.none_bind]

theorem get_tuples_from_isSome (p : TablePage) :
    ∀ (n s : Nat), (∀ j, j < n → (p.get_tuple (s + j)).isSome = true) →
      (p.get_tuples_from s n).isSome = true := by
  intro n
  induction n with
  | zero =>
    intro s _
    rfl
  | succ m ih =>
    intro s h
    have h0 := h 0 (by omega)
    rw [Nat.add_zero] at h0
    obtain ⟨t, ht⟩ := Option.isSome_iff_exists.mp h0
    unfold TablePage.get_tuples_from
    rw [ht]
    simp only [Option.some_bind]
    have hrec := ih (s + 1) (fun j hj => by
      have hx := h (j + 1) (by omega)
      rwa [show s + (j + 1) = s + 1 + j from by omega] at hx)
    obtain ⟨l, hl⟩ := Option.isSome_iff_exists.mp hrec
    rw [hl]
    rfl

/-! # The claims -/

/-- Claim C1: for a well-formed `TablePage` with
`free_space() ≥ bytes.len() + 8`, `insert` succeeds; afterwards the
payload occupies `[old_upper - len, old_upper)`, a slot entry
`{offset = old_upper - len, size = len}` sits at the old `lower_offset`,
`lower_offset` has grown by 8 and `upper_offset` has shrunk by `len`.
In particular, inserting a 20-byte then a 30-byte tuple into a fresh
page yields slots `{PAGE_SIZE-20, 20}` and `{PAGE_SIZE-50, 30}`,
`lower_offset = HEADER_SIZE+16` and `upper_offset = PAGE_SIZE-50`. -/
theorem table_page_insert_spec (p : TablePage) (bs : List Nat) (hwf : WF p)
    (hfree : bs.length + LINE_POINTER_SIZE ≤ p.free_space) :
    (∃ q, insertOk p bs = some q ∧ q.data.length = PAGE_SIZE ∧
      q.lower_offset = p.lower_offset + LINE_POINTER_SIZE ∧
      q.upper_offset = p.upper_offset - bs.length ∧
      readU32 q.data p.lower_offset = p.upper_offset - bs.length ∧
      readU32 q.data (p.lower_offset + LINE_POINTER_OFFSET_SIZE) = bs.length ∧
      (∀ j, j < bs.length → byteAt q.data (p.upper_offset - bs.length + j) = byteAt bs j)) ∧
    ((insertAll (TablePage.new 0) [e2payloadA, e2payloadB]).map fun r =>
        (r.lower_offset, r.upper_offset, slotOffset r 0, slotSize r 0, slotOffset r 1,
          slotSize r 1)) =
      some (HEADER_SIZE + 16, PAGE_SIZE - 50, PAGE_SIZE - 20, 20, PAGE_SIZE - 50, 30) := by
  constructor
  · obtain ⟨hlen, h26, hLU, hUP⟩ := hwf
    have hUPn : p.upper_offset ≤ 4096 := by
      rw [PAGE_SIZE_def] at hUP
      exact hUP
    have hfs : p.free_space = p.upper_offset - p.lower_offset := by
      unfold TablePage.free_space
      exact sub32_eq hLU (by omega)
    rw [hfs, LINE_POINTER_SIZE_def] at hfree
    have he := @insert_eq_some p bs hlen h26 (by rw [LINE_POINTER_SIZE_def]; omega) hUP
    obtain ⟨s1, s2, s3, s4, s5, s6, _, _⟩ :=
      @insertData_spec p.data bs p.lower_offset (p.upper_offset - bs.length) hlen h26
        (by rw [LINE_POINTER_SIZE_def]; omega) (by rw [PAGE_SIZE_def]; omega)
    exact ⟨⟨insertData p.data p.lower_offset (p.upper_offset - bs.length) bs⟩,
      insertOk_eq_some.mpr he, s1, s2, s3, s4, s5, s6⟩
  · rw [e2_insertAll]
    simp only [Option.map_some']
    rw [e2_fields.2.1, e2_fields.2.2.1, e2_fields.2.2.2.1, e2_fields.2.2.2.2.1,
      e2_fields.2.2.2.2.2.1, e2_fields.2.2.2.2.2.2, HEADER_SIZE_def, PAGE_SIZE_def]

theorem table_page_insert_spec_witness :
    (∃ q, insertOk (TablePage.new 0) e2payloadA = some q ∧ q.data.length = PAGE_SIZE ∧
      q.lower_offset = (TablePage.new 0).lower_offset + LINE_POINTER_SIZE ∧
      q.upper_offset = (TablePage.new 0).upper_offset - e2payloadA.length ∧
      readU32 q.data (TablePage.new 0).lower_offset =
        (TablePage.new 0).upper_offset - e2payloadA.length ∧
      readU32 q.data ((TablePage.new 0).lower_offset + LINE_POINTER_OFFSET_SIZE) =
        e2payloadA.length ∧
      (∀ j, j < e2payloadA.length →
        byteAt q.data ((TablePage.new 0).upper_offset - e2payloadA.length + j) =
          byteAt e2payloadA j)) ∧
    ((insertAll (TablePage.new 0) [e2payloadA, e2payloadB]).map fun r =>
        (r.lower_offset, r.upper_offset, slotOffset r 0, slotSize r 0, slotOffset r 1,
          slotSize r 1)) =
      some (HEADER_SIZE + 16, PAGE_SIZE - 50, PAGE_SIZE - 20, 20, PAGE_SIZE - 50, 30) :=
  table_page_insert_spec (TablePage.new 0) e2payloadA (new_WF 0)
    (by rw [new_free_space, e2payloadA_length, PAGE_SIZE_def, HEADER_SIZE_def,
      LINE_POINTER_SIZE_def]; decide)

/-- Claim C2: inserting any sequence of payloads into a fresh page, with
every insert succeeding, makes `get_tuples()` return exactly those
payloads in insertion order and `tuple_count()` their number. -/
theorem table_page_roundtrip (pid : Nat) (ps : List (List Nat)) (p2 : TablePage)
    (h : insertAll (TablePage.new pid) ps = some p2) :
    p2.get_tuples = some ps ∧ p2.tuple_count = ps.length := by
  have hr := insertAll_represents (represents_new pid) h
  rw [List.nil_append] at hr
  exact ⟨represents_get_tuples hr, represents_tuple_count hr⟩

theorem table_page_roundtrip_witness :
    e2page.get_tuples = some [e2payloadA, e2payloadB] ∧ e2page.tuple_count = 2 :=
  table_page_roundtrip 0 [e2payloadA, e2payloadB] e2page e2_insertAll

/-- Claim C3: `insert` returns an error exactly when
`free_space() < bytes.len() + 8`, and in that case the page is byte-for-
byte unchanged (in the embedding, the page state paired with the error
is the input page itself). -/
theorem table_page_insert_error_iff (p : TablePage) (bs : List Nat) (q : TablePage)
    (r : Except String Unit) (h : p.insert bs = some (q, r)) :
    ((∃ e, r = Except.error e) ↔ p.free_space < bs.length + LINE_POINTER_SIZE) ∧
    (∀ e, r = Except.error e → q = p) := by
  rcases insert_cases h with ⟨hg, hqp, hre⟩ | ⟨hg, hro⟩
  · exact ⟨⟨fun _ => hg, fun _ => ⟨_, hre⟩⟩, fun _ _ => hqp⟩
  · subst hro
    refine ⟨⟨?_, ?_⟩, ?_⟩
    · rintro ⟨e, he⟩
      exact Except.noConfusion he
    · intro hlt
      exact absurd hlt hg
    · intro e he
      exact Except.noConfusion he

theorem table_page_insert_error_iff_witness :
    ((∃ e, (Except.error "free space not enough" : Except String Unit) = Except.error e) ↔
      fullPage.free_space < ([] : List Nat).length + LINE_POINTER_SIZE) ∧
    (∀ e, (Except.error "free space not enough" : Except String Unit) = Except.error e →
      fullPage = fullPage) :=
  table_page_insert_error_iff fullPage [] fullPage (Except.error "free space not enough")
    fullPage_insert_err

/-- Claim C4, counterexample: a page satisfying
`HEADER_SIZE ≤ lower_offset ≤ upper_offset ≤ PAGE_SIZE` with
`lower_offset - HEADER_SIZE` a multiple of 8, whose single slot points
at the header (`{offset = 18, size = 8}`), on which `delete` of slot 0
succeeds and overwrites the `upper_offset` field with the transaction
id 0, leaving `upper_offset = 0 < lower_offset = 34`: the conditions do
not survive the call, so the claim as stated is false. -/
theorem offsets_invariant_cex :
    PageInv c4page ∧ c4page.data.length = PAGE_SIZE ∧ 0 < c4page.tuple_count ∧
    (c4page.delete 0 0).isSome = true ∧
    (∀ q, c4page.delete 0 0 = some q → ¬ PageInv q) := by
  refine ⟨c4_PageInv, c4_fields.1, ?_, ?_, ?_⟩
  · rw [c4_tuple_count]
    decide
  · rw [c4_delete]
    rfl
  · intro q hq hcontra
    obtain ⟨h1, h2, _, _⟩ := hcontra
    rw [c4_after_upper q hq] at h2
    rw [HEADER_SIZE_def] at h1
    omega

/-- Claim C4 (amended): on a PAGE_SIZE buffer satisfying the two offset
conditions and slot alignment, any `insert` outcome still satisfies
them; and so does `delete` on a valid slot index provided additionally
the spec's slot invariant holds (every slot range inside
`[upper_offset, PAGE_SIZE)` with the 8-byte MVCC header) — the
counterexample above shows the slot invariant cannot be dropped. -/
theorem offsets_invariant_preserved (p : TablePage) (hlen : p.data.length = PAGE_SIZE)
    (hinv : PageInv p) :
    (∀ bs q r, p.insert bs = some (q, r) → PageInv q ∧ q.data.length = PAGE_SIZE) ∧
    (∀ i txn q, SlotsValid p → i < p.tuple_count → p.delete i txn = some q →
      PageInv q ∧ q.data.length = PAGE_SIZE) := by
  obtain ⟨h26, hLU, hUP, hmod⟩ := hinv
  have h26n : 26 ≤ p.lower_offset := h26
  have hUPn : p.upper_offset ≤ 4096 := by
    rw [PAGE_SIZE_def] at hUP
    exact hUP
  have hmodn : (p.lower_offset - 26) % 8 = 0 := hmod
  constructor
  · intro bs q r h
    rcases insert_cases h with ⟨_, hqp, _⟩ | ⟨hg, hro⟩
    · subst hqp
      exact ⟨⟨h26, hLU, hUP, hmod⟩, hlen⟩
    · subst hro
      have hfs : p.free_space = p.upper_offset - p.lower_offset := by
        unfold TablePage.free_space
        exact sub32_eq hLU (by omega)
      rw [hfs, LINE_POINTER_SIZE_def] at hg
      have he := @insert_eq_some p bs hlen h26 (by rw [LINE_POINTER_SIZE_def]; omega) hUP
      rw [he] at h
      simp only [Option.some.injEq, Prod.mk.injEq] at h
      obtain ⟨hq, _⟩ := h
      have hqd : q.data = insertData p.data p.lower_offset (p.upper_offset - bs.length) bs := by
        rw [← hq]
      obtain ⟨s1, s2, s3, _, _, _, _, _⟩ :=
        @insertData_spec p.data bs p.lower_offset (p.upper_offset - bs.length) hlen h26
          (by rw [LINE_POINTER_SIZE_def]; omega) (by rw [PAGE_SIZE_def]; omega)
      have hql : q.lower_offset = p.lower_offset + LINE_POINTER_SIZE := by
        unfold TablePage.lower_offset
        rw [hqd]
        exact s2
      have hqu : q.upper_offset = p.upper_offset - bs.length := by
        unfold TablePage.upper_offset
        rw [hqd]
        exact s3
      refine ⟨⟨?_, ?_, ?_, ?_⟩, by rw [hqd]; exact s1⟩
      · rw [hql, HEADER_SIZE_def, LINE_POINTER_SIZE_def]
        omega
      · rw [hql, hqu, LINE_POINTER_SIZE_def]
        omega
      · rw [hqu, PAGE_SIZE_def]
        omega
      · rw [hql, HEADER_SIZE_def, LINE_POINTER_SIZE_def]
        omega
  · intro i txn q hslots hi hdel
    obtain ⟨hql, hqu, hqlen⟩ :=
      delete_preserves_header hlen ⟨h26, hLU, hUP, hmod⟩ hslots hi hdel
    refine ⟨⟨?_, ?_, ?_, ?_⟩, hqlen⟩
    · rw [hql]
      exact h26
    · rw [hql, hqu]
      exact hLU
    · rw [hqu]
      exact hUP
    · rw [hql]
      exact hmod

theorem offsets_invariant_preserved_witness :
    (∀ bs q r, e2page.insert bs = some (q, r) → PageInv q ∧ q.data.length = PAGE_SIZE) ∧
    (∀ i txn q, SlotsValid e2page → i < e2page.tuple_count → e2page.delete i txn = some q →
      PageInv q ∧ q.data.length = PAGE_SIZE) :=
  offsets_invariant_preserved e2page e2_fields.1 e2_PageInv

/-- Claim C5: on a valid page, `delete(i, txn_id)` succeeds and changes
only the four bytes of the `xmax` field of the tuple referenced by slot
`i` (they become the little-endian `txn_id`); every other byte of the
page — header, slot directory, the rest of that tuple and all other
tuples — is unchanged. -/
theorem table_page_delete_frame (p : TablePage) (i txn : Nat)
    (hlen : p.data.length = PAGE_SIZE) (hinv : PageInv p) (hslots : SlotsValid p)
    (hi : i < p.tuple_count) :
    ∃ q, p.delete i txn = some q ∧ q.data.length = PAGE_SIZE ∧
      (∀ j, j < XMAX_SIZE →
        byteAt q.data (slotOffset p i + XMAX_OFFSET + j) = byteAt (u32Bytes (wrap32 txn)) j) ∧
      (∀ j, j < slotOffset p i + XMAX_OFFSET ∨ slotOffset p i + XMAX_OFFSET + XMAX_SIZE ≤ j →
        byteAt q.data j = byteAt p.data j) := by
  obtain ⟨h26, hLU, hUP, _⟩ := hinv
  obtain ⟨_, hoff, hsize⟩ := hslots i hi
  exact delete_spec hlen h26 (le_trans hLU hUP) hi hoff hsize

theorem table_page_delete_frame_witness :
    ∃ q, e2page.delete 0 7 = some q ∧ q.data.length = PAGE_SIZE ∧
      (∀ j, j < XMAX_SIZE → byteAt q.data (slotOffset e2page 0 + XMAX_OFFSET + j) =
        byteAt (u32Bytes (wrap32 7)) j) ∧
      (∀ j, j < slotOffset e2page 0 + XMAX_OFFSET ∨
          slotOffset e2page 0 + XMAX_OFFSET + XMAX_SIZE ≤ j →
        byteAt q.data j = byteAt e2page.data j) :=
  table_page_delete_frame e2page 0 7 e2_fields.1 e2_PageInv e2_SlotsValid
    (by rw [e2_tuple_count]; decide)

/-- Claim C6: `free_space()` is non-increasing across successful
inserts — each successful `insert(bytes)` decreases it by exactly
`bytes.len() + 8` — and a `delete` on a valid page leaves it
unchanged. -/
theorem free_space_evolution :
    (∀ p bs q, WF p → insertOk p bs = some q →
      q.free_space + (bs.length + LINE_POINTER_SIZE) = p.free_space) ∧
    (∀ p i txn q, p.data.length = PAGE_SIZE → PageInv p → SlotsValid p →
      i < p.tuple_count → p.delete i txn = some q → q.free_space = p.free_space) := by
  constructor
  · intro p bs q hwf h
    obtain ⟨hlen, h26, hLU, hUP⟩ := hwf
    have hUPn : p.upper_offset ≤ 4096 := by
      rw [PAGE_SIZE_def] at hUP
      exact hUP
    have hins := insertOk_eq_some.mp h
    rcases insert_cases hins with ⟨_, _, hre⟩ | ⟨hg, _⟩
    · exact absurd hre (by simp)
    have hfs : p.free_space = p.upper_offset - p.lower_offset := by
      unfold TablePage.free_space
      exact sub32_eq hLU (by omega)
    rw [hfs, LINE_POINTER_SIZE_def] at hg
    have he := @insert_eq_some p bs hlen h26 (by rw [LINE_POINTER_SIZE_def]; omega) hUP
    rw [he] at hins
    simp only [Option.some.injEq, Prod.mk.injEq] at hins
    obtain ⟨hq, _⟩ := hins
    have hqd : q.data = insertData p.data p.lower_offset (p.upper_offset - bs.length) bs := by
      rw [← hq]
    obtain ⟨_, s2, s3, _, _, _, _, _⟩ :=
      @insertData_spec p.data bs p.lower_offset (p.upper_offset - bs.length) hlen h26
        (by rw [LINE_POINTER_SIZE_def]; omega) (by rw [PAGE_SIZE_def]; omega)
    have hql : q.lower_offset = p.lower_offset + LINE_POINTER_SIZE := by
      unfold TablePage.lower_offset
      rw [hqd]
      exact s2
    have hqu : q.upper_offset = p.upper_offset - bs.length := by
      unfold TablePage.upper_offset
      rw [hqd]
      exact s3
    unfold TablePage.free_space
    rw [hql, hqu]
    rw [sub32_eq (by rw [LINE_POINTER_SIZE_def]; omega) (by omega)]
    rw [sub32_eq hLU (by omega)]
    rw [LINE_POINTER_SIZE_def]
    omega
  · intro p i txn q hlen hinv hslots hi hdel
    obtain ⟨hql, hqu, _⟩ := delete_preserves_header hlen hinv hslots hi hdel
    unfold TablePage.free_space
    rw [hql, hqu]

/-- Claim C10, counterexample: a page satisfying exactly the claimed
precondition (buffer of PAGE_SIZE bytes, ordered offsets, every slot's
byte range contained in `[upper_offset, PAGE_SIZE)`) whose single slot
has size 6 — smaller than the 8-byte MVCC header — on which
`delete(0, 7)` reaches the out-of-bounds branch of the embedded slice
operation inside `set_xmax` and panics (`none`). -/
theorem slotted_access_safe_cex :
    c10page.data.length = PAGE_SIZE ∧ HEADER_SIZE ≤ c10page.lower_offset ∧
    c10page.lower_offset ≤ c10page.upper_offset ∧ c10page.upper_offset ≤ PAGE_SIZE ∧
    (∀ i, i < c10page.tuple_count →
      c10page.upper_offset ≤ slotOffset c10page i ∧
        slotOffset c10page i + slotSize c10page i ≤ PAGE_SIZE) ∧
    0 < c10page.tuple_count ∧ c10page.delete 0 7 = none := by
  refine ⟨c10_fields.1, ?_, ?_, ?_, ?_, ?_, c10_delete_none⟩
  · rw [c10_fields.2.1, HEADER_SIZE_def]
    decide
  · rw [c10_fields.2.1, c10_fields.2.2.1]
    decide
  · rw [c10_fields.2.2.1, PAGE_SIZE_def]
    decide
  · intro i hi
    rw [c10_tuple_count] at hi
    interval_cases i
    constructor
    · rw [c10_fields.2.2.1, c10_fields.2.2.2.1]
    · rw [c10_fields.2.2.2.1, c10_fields.2.2.2.2, PAGE_SIZE_def]
  · rw [c10_tuple_count]
    decide

/-- Claim C10 (amended): under the claimed precondition, `get_tuple` and
`get_tuples` never reach the out-of-bounds branch of the embedded slice
operations; `delete` does not either provided the slot's size covers the
8-byte MVCC header — the counterexample above shows this extra bound is
needed for `delete`. -/
theorem slotted_access_safe (p : TablePage) (hlen : p.data.length = PAGE_SIZE)
    (h26 : HEADER_SIZE ≤ p.lower_offset) (hLU : p.lower_offset ≤ p.upper_offset)
    (hUP : p.upper_offset ≤ PAGE_SIZE)
    (hslots : ∀ i, i < p.tuple_count →
      p.upper_offset ≤ slotOffset p i ∧ slotOffset p i + slotSize p i ≤ PAGE_SIZE) :
    (∀ i, i < p.tuple_count → (p.get_tuple i).isSome = true) ∧
    (p.get_tuples).isSome = true ∧
    (∀ i txn, i < p.tuple_count → XMAX_OFFSET + XMAX_SIZE ≤ slotSize p i →
      (p.delete i txn).isSome = true) := by
  have h26n : 26 ≤ p.lower_offset := h26
  have hUPn : p.upper_offset ≤ 4096 := by
    rw [PAGE_SIZE_def] at hUP
    exact hUP
  have hdir : ∀ i, i < p.tuple_count →
      HEADER_SIZE + i * LINE_POINTER_SIZE + LINE_POINTER_SIZE ≤ PAGE_SIZE := by
    intro i hi
    unfold TablePage.tuple_count at hi
    rw [HEADER_SIZE_def, LINE_POINTER_SIZE_def] at hi ⊢
    rw [PAGE_SIZE_def]
    omega
  have hget : ∀ i, i < p.tuple_count →
      p.get_tuple i = some ((p.data.drop (slotOffset p i)).take (slotSize p i)) :=
    fun i hi => get_tuple_eq_some hlen (hdir i hi) (hslots i hi).2
  refine ⟨?_, ?_, ?_⟩
  · intro i hi
    rw [hget i hi]
    rfl
  · unfold TablePage.get_tuples
    refine get_tuples_from_isSome p p.tuple_count 0 ?_
    intro j hj
    rw [Nat.zero_add, hget j hj]
    rfl
  · intro i txn hi hsize
    rw [delete_eq_some hlen (hdir i hi) (hslots i hi).2 hsize]
    rfl

theorem slotted_access_safe_witness :
    (∀ i, i < e2page.tuple_count → (e2page.get_tuple i).isSome = true) ∧
    (e2page.get_tuples).isSome = true ∧
    (∀ i txn, i < e2page.tuple_count → XMAX_OFFSET + XMAX_SIZE ≤ slotSize e2page i →
      (e2page.delete i txn).isSome = true) :=
  slotted_access_safe e2page e2_fields.1
    (by rw [e2_fields.2.1, HEADER_SIZE_def]; decide)
    (by rw [e2_fields.2.1, e2_fields.2.2.1]; decide)
    (by rw [e2_fields.2.2.1, PAGE_SIZE_def]; decide)
    (fun i hi => ⟨(e2_SlotsValid i hi).1, (e2_SlotsValid i hi).2.1⟩)

/-- Claim C7: for every bound Delete statement, `Planner::plan` returns
a `Plan::Delete` whose `first_page_id` is the base table reference's
`first_page_id`, whose schema is the single Int column `__delete_count`,
and whose child is the SeqScan over that table (no condition) or a
Filter holding the bound condition and the SeqScan's schema over that
SeqScan (condition present). -/
theorem planner_delete_plan (s : BoundDeleteStatementAST) :
    (Planner.new (BoundStatementAST.Delete s)).plan =
      Plan.Delete (DeletePlan.mk s.table_reference.first_page_id
        ⟨[⟨"__delete_count", DataType.Int⟩]⟩
        (match s.condition with
          | none =>
            Plan.SeqScan ⟨s.table_reference.first_page_id, s.table_reference.schema⟩
          | some c =>
            Plan.Filter (FilterPlan.mk c s.table_reference.schema
              (Plan.SeqScan ⟨s.table_reference.first_page_id,
                s.table_reference.schema⟩)))) := by
  cases hc : s.condition with
  | none =>
    simp only [Planner.new, Planner.plan, Planner.plan_delete_statement,
      Planner.plan_base_table_reference, hc]
  | some c =>
    simp only [Planner.new, Planner.plan, Planner.plan_delete_statement,
      Planner.plan_base_table_reference, Plan.schema, hc]

theorem steps_drain :
    ∀ (c : List Tuple) (e : DeleteExecutor) (th : TableHeap),
      e.child = c → e.table_heap = some th → (∀ r ∈ c, r.rid ≠ none) →
      ∃ f, e.steps c.length = Except.ok f ∧ f.child = [] ∧
        f.count = e.count + c.length ∧
        f.table_heap = some ⟨th.first_page_id, th.txn_id,
          th.deleted ++ c.filterMap Tuple.rid⟩ := by
  intro c
  induction c with
  | nil =>
    intro e th hc hth _
    refine ⟨e, rfl, hc, rfl, ?_⟩
    rw [hth]
    simp
  | cons row rest ih =>
    intro e th hc hth hno
    obtain ⟨rid, hr⟩ : ∃ rid, row.rid = some rid := by
      cases hr : row.rid with
      | none => exact absurd hr (hno row (List.mem_cons_self row rest))
      | some rid => exact ⟨rid, rfl⟩
    have hnext : e.next = Except.ok
        ({ e with
            child := rest
            table_heap := some (th.delete rid)
            count := e.count + 1 }, some (Tuple.new none [])) := by
      simp only [DeleteExecutor.next, hc, hth, hr]
    have hstep : e.steps (row :: rest).length =
        DeleteExecutor.steps { e with
          child := rest
          table_heap := some (th.delete rid)
          count := e.count + 1 } rest.length := by
      show e.steps (rest.length + 1) = _
      simp only [DeleteExecutor.steps, hnext]
    rw [hstep]
    obtain ⟨f, h1, h2, h3, h4⟩ :=
      ih { e with
            child := rest
            table_heap := some (th.delete rid)
            count := e.count + 1 } (th.delete rid) rfl rfl
        (fun r hrm => hno r (List.mem_cons_of_mem row hrm))
    refine ⟨f, h1, h2, ?_, ?_⟩
    · rw [h3]
      show e.count + 1 + rest.length = e.count + (row :: rest).length
      simp only [List.length_cons]
      omega
    · rw [h4]
      simp [TableHeap.delete, List.filterMap_cons, hr]

/-- Claim C8: for an initialized `DeleteExecutor` (`table_heap = some th`):
`next()` on a child row carrying an rid deletes that rid through the
heap, increments `count` by one and yields the sentinel
`Tuple::new(None, &vec![])`; on a row without an rid it fails; on an
exhausted child it returns `Ok(None)`; and after draining a child of
rows that all carry rids, `count` has grown by the child's length, the
heap has recorded exactly those rids in order, and the final `next()`
returns `Ok(None)`. -/
theorem delete_executor_next_spec (e : DeleteExecutor) (th : TableHeap)
    (hth : e.table_heap = some th) :
    (∀ rid rest row, e.child = row :: rest → row.rid = some rid →
      e.next = Except.ok
        ({ e with
            child := rest
            table_heap := some (th.delete rid)
            count := e.count + 1 }, some (Tuple.new none []))) ∧
    (∀ row rest, e.child = row :: rest → row.rid = none →
      e.next = Except.error ExecError.ridIsNone) ∧
    (e.child = [] → e.next = Except.ok (e, none)) ∧
    ((∀ r ∈ e.child, r.rid ≠ none) →
      ∃ f, e.steps e.child.length = Except.ok f ∧ f.child = [] ∧
        f.count = e.count + e.child.length ∧
        f.table_heap = some ⟨th.first_page_id, th.txn_id,
          th.deleted ++ e.child.filterMap Tuple.rid⟩ ∧
        f.next = Except.ok (f, none)) := by
  refine ⟨?_, ?_, ?_, ?_⟩
  · intro rid rest row hc hr
    simp only [DeleteExecutor.next, hc, hth, hr]
  · intro row rest hc hr
    simp only [DeleteExecutor.next, hc, hth, hr]
  · intro hc
    simp only [DeleteExecutor.next, hc]
  · intro hno
    obtain ⟨f, h1, h2, h3, h4⟩ := steps_drain e.child e th rfl hth hno
    refine ⟨f, h1, h2, h3, h4, ?_⟩
    simp only [DeleteExecutor.next, h2]

theorem delete_executor_next_spec_witness :
    (∀ rid rest row, e8.child = row :: rest → row.rid = some rid →
      e8.next = Except.ok
        ({ e8 with
            child := rest
            table_heap := some (th0.delete rid)
            count := e8.count + 1 }, some (Tuple.new none []))) ∧
    (∀ row rest, e8.child = row :: rest → row.rid = none →
      e8.next = Except.error ExecError.ridIsNone) ∧
    (e8.child = [] → e8.next = Except.ok (e8, none)) ∧
    ((∀ r ∈ e8.child, r.rid ≠ none) →
      ∃ f, e8.steps e8.child.length = Except.ok f ∧ f.child = [] ∧
        f.count = e8.count + e8.child.length ∧
        f.table_heap = some ⟨th0.first_page_id, th0.txn_id,
          th0.deleted ++ e8.child.filterMap Tuple.rid⟩ ∧
        f.next = Except.ok (f, none)) :=
  delete_executor_next_spec e8 th0 rfl

/-- Claim C9, counterexample: an executor on which `init()` was never
called (`table_heap = none`) whose child stream is exhausted: `next()`
returns `Ok(None)` instead of failing, because the code pulls the child
before checking the heap — refuting "fails regardless of what the child
stream contains". -/
theorem delete_executor_uninitialized_cex :
    exec9.table_heap = none ∧ exec9.next = Except.ok (exec9, none) :=
  ⟨rfl, rfl⟩

/-- Claim C9 (amended): with `table_heap = none`, `next()` fails with
the NotInitialized error exactly when the child still yields a row;
with the child exhausted it returns `Ok(None)`, so the error is not
unconditional over child streams. -/
theorem delete_executor_uninitialized (e : DeleteExecutor)
    (h : e.table_heap = none) :
    (e.child ≠ [] → e.next = Except.error ExecError.tableHeapNotInitialized) ∧
    (e.child = [] → e.next = Except.ok (e, none)) := by
  constructor
  · intro hne
    cases hc : e.child with
    | nil => exact absurd hc hne
    | cons row rest => simp only [DeleteExecutor.next, hc, h]
  · intro hc
    simp only [DeleteExecutor.next, hc]

theorem delete_executor_uninitialized_witness :
    (w9.child ≠ [] → w9.next = Except.error ExecError.tableHeapNotInitialized) ∧
    (w9.child = [] → w9.next = Except.ok (w9, none)) :=
  delete_executor_uninitialized w9 rfl

end Junkdb
